import Mathlib

/-!
# Verification of the Serotonin Tournament Software bracket engine

Shallow embedding of the bracket progression engine of `app.py`:
bracket generation (`create_serpentine_matches`, `generate_double_elim_bracket`,
`generate_swiss_bracket`), match resolution (`update_match`), winner/loser
routing (`advance_players`), and the Swiss stage controller
(`advance_swiss_stage`, `go_back_swiss`).

Python dictionaries become structures; in-place mutation becomes explicit
state passing; Python exceptions (IndexError/TypeError/KeyError) become
`Except` results whose error value carries the state at the moment the
exception was raised (the in-memory database keeps all mutations performed
before the exception).  `math.ceil(n/4.0)` on the integer sizes involved is
`(n+3)/4`, and `math.ceil(n/2.0)` is `(n+1)/2`.  Python's `list.sort` /
`sorted` are stable, and a stable sort for a total preorder has a unique
output, so they are modeled by the structurally recursive stable sort
`pySort` (insertion sort); `reverse=True` is modeled by flipping the
comparison (Python keeps ties in original order under `reverse=True`).
-/

set_option maxHeartbeats 1000000

namespace Serotonin

/-- A roster entry (the dictionaries produced by the roster provider and the
BYE/TBD sentinels).  `seed` is `none` for BYE/TBD sentinels. -/
structure Player where
  trackmania_id : String
  trackmania_name : String
  display_bracket_name : String
  seed : Option Int
deriving DecidableEq, Repr

/-- The BYE sentinel used for padding in `create_serpentine_matches`. -/
def byePlayer : Player :=
  { trackmania_id := "BYE", trackmania_name := "BYE"
    display_bracket_name := "BYE", seed := none }

/-- The TBD placeholder fed into later upper rounds. -/
def tbdPlayer : Player :=
  { trackmania_id := "TBD", trackmania_name := "TBD"
    display_bracket_name := "TBD", seed := none }

/-- A slot of a double-elimination match: a player record plus a score
(the dicts stored in `match["players"]`). -/
structure DESlot where
  trackmania_id : String
  trackmania_name : String
  display_bracket_name : String
  seed : Option Int
  score : Int
deriving DecidableEq, Repr

/-- The TBD placeholder slot used for pre-allocated matches. -/
def tbdSlot : DESlot :=
  { trackmania_id := "TBD", trackmania_name := "TBD"
    display_bracket_name := "TBD", seed := none, score := 0 }

/-- A double-elimination match dict. -/
structure DEMatch where
  id : String
  players : List DESlot
  winners : List DESlot
  is_complete : Bool
deriving DecidableEq, Repr

/-- A round dict: `{"name": ..., "matches": [...]}`. -/
structure DERound where
  name : String
  matches' : List DEMatch
deriving DecidableEq, Repr

/-- The double-elimination bracket: upper rounds, lower rounds, grand final. -/
structure DEBracket where
  upper : List DERound
  lower : List DERound
  grand_final : DERound
deriving DecidableEq, Repr

/-- `create_serpentine_matches`: pad the list with BYEs to `4 * ceil(n/4)`,
group positions `i, 2m-1-i, 2m+i, 4m-1-i` into match `i`, and drop BYEs. -/
def create_serpentine_matches (players : List Player) : List (List Player) :=
  if players.length = 0 then [] else
  let num_matches := (players.length + 3) / 4
  let padded := players ++
    List.replicate (num_matches * 4 - players.length) byePlayer
  (List.range num_matches).map (fun i =>
    ([padded.getD i byePlayer,
      padded.getD (num_matches * 2 - 1 - i) byePlayer,
      padded.getD (num_matches * 2 + i) byePlayer,
      padded.getD (num_matches * 4 - 1 - i) byePlayer]).filter
      (fun p => p.trackmania_id ≠ "BYE"))

/-- The slot dict built for each grouped player in
`generate_double_elim_bracket` (score initialised to 0). -/
def toSlot (p : Player) : DESlot :=
  { trackmania_id := p.trackmania_id, trackmania_name := p.trackmania_name
    display_bracket_name := p.display_bracket_name, seed := p.seed, score := 0 }

/-- The upper-round match dicts built from serpentine groups. -/
def mkUBMatches (groups : List (List Player)) (round_num : Nat) : List DEMatch :=
  groups.enum.map (fun ig =>
    { id := "UB-R" ++ toString round_num ++ "M" ++ toString (ig.1 + 1)
      players := ig.2.map toSlot, winners := [], is_complete := false })

/-- The `while len(current_players) > 2` loop of `generate_double_elim_bracket`,
with an explicit iteration bound so the recursion is structural: build a round
from the current players, stop once a round would feed two or fewer winners,
otherwise recurse on that many TBD placeholders.  The player count shrinks
every iteration (`2 * ceil(n/4) < n` for `n ≥ 3`), so any `fuel ≥
current.length` computes the full loop (`buildUpperRoundsFuel_congr`). -/
def buildUpperRoundsFuel : Nat → List Player → Nat → List DERound
  | 0, _, _ => []
  | fuel + 1, current, round_num =>
    if current.length ≤ 2 then []
    else
      let ms := mkUBMatches (create_serpentine_matches current) round_num
      let round : DERound := ⟨"Upper Round " ++ toString round_num, ms⟩
      if ms.length * 2 ≤ 2 then [round]
      else round ::
        buildUpperRoundsFuel fuel (List.replicate (ms.length * 2) tbdPlayer)
          (round_num + 1)

/-- The `while` loop, started with enough fuel for its worst case. -/
def buildUpperRounds (current : List Player) (round_num : Nat) : List DERound :=
  buildUpperRoundsFuel current.length current round_num

/-- One pre-allocated lower round: `ceil(num_matches/2)` all-TBD quad matches. -/
def mkLBRound (i : Nat) (num_lb_matches : Nat) : DERound :=
  { name := "Lower Round " ++ toString (i + 1)
    matches' := (List.range num_lb_matches).map (fun j =>
      { id := "LB-R" ++ toString (i + 1) ++ "M" ++ toString (j + 1)
        players := List.replicate 4 tbdSlot, winners := [], is_complete := false }) }

/-- Python's stable sort (`list.sort` / `sorted`) for the Boolean total
preorder `le`: a stable sort of a total preorder has a unique output, so the
structurally recursive insertion sort models it exactly. -/
def pySort {α : Type} (le : α → α → Bool) (l : List α) : List α :=
  l.insertionSort (fun a b => le a b = true)

/-- The sort key of `sorted(players, key=lambda p: p['seed'])` (roster seeds
are integers; sentinels never reach this sort). -/
def seedLe (p q : Player) : Bool := p.seed.getD 0 ≤ q.seed.getD 0

/-- `generate_double_elim_bracket`. -/
def generate_double_elim_bracket (players : List Player) : Option DEBracket :=
  if players = [] then none else
  let sorted_players := pySort seedLe players
  let upper := buildUpperRounds sorted_players 1
  let lower := (List.range (upper.length + 1)).filterMap (fun i =>
    let num_matches :=
      if i < upper.length then ((upper.getD i ⟨"", []⟩).matches').length else 1
    let num_lb_matches := (num_matches + 1) / 2
    if 0 < num_lb_matches then some (mkLBRound i num_lb_matches) else none)
  some { upper := upper, lower := lower
         grand_final := ⟨"Grand Final",
           [{ id := "GF-M1", players := List.replicate 4 tbdSlot
              winners := [], is_complete := false }]⟩ }

/-- A Swiss match slot: player record plus mutable score and winner flag.
`is_winner` is `none` when the Python dict lacks the `'is_winner'` key
(the freshly built matches of a stage transition omit it). -/
structure SwissSlot where
  trackmania_id : String
  trackmania_name : String
  display_bracket_name : String
  seed : Int
  score : Int
  is_winner : Option Bool
deriving DecidableEq, Repr

/-- A Swiss match dict.  `is_complete` is `none` when the key is absent
(matches built by `advance_swiss_stage` omit it). -/
structure SwissMatch where
  id : String
  name : String
  players : List SwissSlot
  is_complete : Option Bool
deriving DecidableEq, Repr

/-- The Swiss bracket: stage tag, live matches, history snapshots keyed by
round number (the Python dict key `"round_k"` is modeled by `k`), and the
current round. -/
structure SwissBracket where
  stage : String
  swiss_matches : List SwissMatch
  history : List (Nat × List SwissMatch)
  round : Nat
deriving DecidableEq, Repr

/-- Python dict write `history[k] = v` (overwrites an existing key). -/
def histSet (h : List (Nat × List SwissMatch)) (k : Nat)
    (v : List SwissMatch) : List (Nat × List SwissMatch) :=
  (k, v) :: h.filter (fun e => e.1 ≠ k)

/-- Python dict read `history.get(k)` / `k in history`. -/
def histGet (h : List (Nat × List SwissMatch)) (k : Nat) :
    Option (List SwissMatch) :=
  (h.find? (fun e => e.1 = k)).map (fun e => e.2)

/-- Python dict delete `del history[k]`. -/
def histDel (h : List (Nat × List SwissMatch)) (k : Nat) :
    List (Nat × List SwissMatch) :=
  h.filter (fun e => e.1 ≠ k)

/-- The slot dict built by `generate_swiss_bracket` for a roster player. -/
def toSwissSlot (p : Player) : SwissSlot :=
  { trackmania_id := p.trackmania_id, trackmania_name := p.trackmania_name
    display_bracket_name := p.display_bracket_name
    seed := p.seed.getD 0, score := 0, is_winner := some false }

/-- `generate_swiss_bracket`: requires exactly 16 players; fixed seed quads
`{1-4}, {5-8}, {9-12}, {13-16}` form the four Round-1 matches. -/
def generate_swiss_bracket (players : List Player) : Option SwissBracket :=
  if players.length ≠ 16 then none else
  let sorted_players := pySort seedLe players
  let pick := fun (seeds : List Int) =>
    (sorted_players.filter (fun p => (p.seed.getD 0) ∈ seeds)).map toSwissSlot
  some { stage := "seeding"
         swiss_matches :=
           [⟨"SWISS-R1-M1", "Match 1", pick [1,2,3,4], some false⟩,
            ⟨"SWISS-R1-M2", "Match 2", pick [5,6,7,8], some false⟩,
            ⟨"SWISS-R1-M3", "Match 3", pick [9,10,11,12], some false⟩,
            ⟨"SWISS-R1-M4", "Match 4", pick [13,14,15,16], some false⟩]
         history := [], round := 1 }

/-- Python `sort(key=lambda p: (p.get('score', 0), -p['seed']), reverse=True)`
as the stable comparison for `pySort`: `a` may precede `b` iff the key of
`a` is lexicographically at least the key of `b` (score descending, seed
ascending as tiebreak). -/
def swissKeyLe (a b : SwissSlot) : Bool :=
  b.score < a.score || (a.score == b.score && a.seed ≤ b.seed)

/-- Python `sorted(..., key=lambda p: p.get('score', 0), reverse=True)`:
score descending, ties stable. -/
def scoreDescLe (a b : SwissSlot) : Bool := b.score ≤ a.score

/-- Python `sorted(..., key=lambda p: p['seed'])`: seed ascending, stable. -/
def seedAscLe (a b : SwissSlot) : Bool := a.seed ≤ b.seed

/-- The score-application loop of the Swiss branch of `update_match` and of
nothing else: positions beyond `len(scores)` keep their old score. -/
def applySwissScores (scores : List Int) (ps : List SwissSlot) :
    List SwissSlot :=
  ps.enum.map (fun ip =>
    if ip.1 < scores.length then { ip.2 with score := scores.getD ip.1 0 }
    else ip.2)

/-- Sort a match's players by `(score, -seed)` descending and mark the top 2
as winners — the shared "finalize winners" step of the Swiss branch of
`update_match` and of `advance_swiss_stage`. -/
def sortAndFlagTop2 (ps : List SwissSlot) : List SwissSlot :=
  ((pySort swissKeyLe ps).enum).map (fun ip =>
    { ip.2 with is_winner := some (ip.1 < 2) })

/-- `if 'is_winner' not in player: player['is_winner'] = False`. -/
def ensureWinnerFlag (p : SwissSlot) : SwissSlot :=
  { p with is_winner := some (p.is_winner.getD false) }

/-- Score reset `player['score'] = 0` applied to every slot of a match list
(the tail of `advance_swiss_stage`). -/
def zeroScores (ms : List SwissMatch) : List SwissMatch :=
  ms.map (fun m => { m with players := m.players.map (fun p => { p with score := 0 }) })

/-- The bracket stored in `db['main_tournament']['bracket']`: either the
double-elimination shape or the Swiss shape. -/
inductive Bracket where
  | de (b : DEBracket)
  | swiss (s : SwissBracket)
deriving DecidableEq, Repr

/-- The qualification thresholds of `db['main_tournament']['config']`. -/
structure Config where
  points_to_advance : Int
  points_for_finals : Int
deriving DecidableEq, Repr

/-- The engine-relevant fields of `db['main_tournament']`. -/
structure Tournament where
  bracket_type : String
  bracket : Option Bracket
  config : Config
deriving DecidableEq, Repr

/-- Lift a Python expression that can raise (`none`) into `Except`, the error
carrying the database state at the moment the exception is raised. -/
def orErr {σ α : Type} (x : Option α) (st : σ) : Except σ α :=
  match x with
  | some a => .ok a
  | none => .error st

/-- Read match `m` of round `r` of a round list (raises on bad indices). -/
def getRoundMatch (rounds : List DERound) (r m : Nat) : Option DEMatch :=
  (rounds[r]?).bind (fun rd => rd.matches'[m]?)

/-- Python `rounds[r]["matches"][m]["players"][s] = v`; `none` when an index
is out of range (IndexError). -/
def setRoundSlot (rounds : List DERound) (r m s : Nat) (v : DESlot) :
    Option (List DERound) :=
  match rounds[r]? with
  | none => none
  | some rd =>
    match rd.matches'[m]? with
    | none => none
    | some mt =>
      if s < mt.players.length then
        let mt' : DEMatch := { mt with players := mt.players.set s v }
        some (rounds.set r { rd with matches' := rd.matches'.set m mt' })
      else none

/-- Write into the upper bracket. -/
def setUpperSlot (b : DEBracket) (r m s : Nat) (v : DESlot) : Option DEBracket :=
  (setRoundSlot b.upper r m s v).map (fun u => { b with upper := u })

/-- Write into the lower bracket. -/
def setLowerSlot (b : DEBracket) (r m s : Nat) (v : DESlot) : Option DEBracket :=
  (setRoundSlot b.lower r m s v).map (fun l => { b with lower := l })

/-- Write `grand_final["matches"][0]["players"][s] = v`. -/
def setGFSlot (b : DEBracket) (s : Nat) (v : DESlot) : Option DEBracket :=
  match b.grand_final.matches'[0]? with
  | none => none
  | some mt =>
    if s < mt.players.length then
      let mt' : DEMatch := { mt with players := mt.players.set s v }
      let gf' : DERound :=
        { b.grand_final with matches' := b.grand_final.matches'.set 0 mt' }
      some { b with grand_final := gf' }
    else none

/-- The loser-routing tail of the upper branch of `advance_players`. -/
def advanceUpperLosers (b : DEBracket) (losers : List DESlot)
    (round_index match_index : Nat) : Except DEBracket DEBracket := do
  let lb_round_index := if round_index = 0 then 0 else (round_index - 1) * 2 + 1
  if lb_round_index < b.lower.length then do
    let next_match_index := match_index / 2
    let start_slot := (match_index % 2) * 2
    let _ ← orErr (getRoundMatch b.lower lb_round_index next_match_index) b
    let l0 ← orErr losers[0]? b
    let b1 ← orErr (setLowerSlot b lb_round_index next_match_index start_slot l0) b
    let l1 ← orErr losers[1]? b1
    orErr (setLowerSlot b1 lb_round_index next_match_index (start_slot + 1) l1) b1
  else pure b

/-- The winner-routing head of the upper branch of `advance_players`:
winners fill upper round `r+1`, match `m//2`, slots `(m%2)*2, (m%2)*2+1`, or
the grand-final slots 0–1 when no upper round `r+1` exists. -/
def advanceUpperWinners (b0 : DEBracket) (winners : List DESlot)
    (round_index match_index : Nat) : Except DEBracket DEBracket := do
  if b0.upper.length ≤ round_index + 1 then do
    let w0 ← orErr winners[0]? b0
    let bA ← orErr (setGFSlot b0 0 w0) b0
    let w1 ← orErr winners[1]? bA
    orErr (setGFSlot bA 1 w1) bA
  else do
    let next_match_index := match_index / 2
    let start_slot := (match_index % 2) * 2
    let _ ← orErr (getRoundMatch b0.upper (round_index + 1) next_match_index) b0
    let w0 ← orErr winners[0]? b0
    let bA ← orErr
      (setUpperSlot b0 (round_index + 1) next_match_index start_slot w0) b0
    let w1 ← orErr winners[1]? bA
    orErr (setUpperSlot bA (round_index + 1) next_match_index (start_slot + 1) w1) bA

/-- The lower branch of `advance_players`: winners fill lower round `r+1`
(same `(m//2, (m%2)*2)` placement, guarded by the destination match count),
or the grand-final slots 2–3 when no lower round `r+1` exists.  Lower-bracket
losers are not routed. -/
def advanceLowerWinners (b0 : DEBracket) (winners : List DESlot)
    (round_index match_index : Nat) : Except DEBracket DEBracket := do
  if b0.lower.length ≤ round_index + 1 then do
    let w0 ← orErr winners[0]? b0
    let bA ← orErr (setGFSlot b0 2 w0) b0
    let w1 ← orErr winners[1]? bA
    orErr (setGFSlot bA 3 w1) bA
  else do
    let next_match_index := match_index / 2
    let start_slot := (match_index % 2) * 2
    let cnt := ((b0.lower.getD (round_index + 1) ⟨"", []⟩).matches').length
    if next_match_index < cnt then do
      let _ ← orErr (getRoundMatch b0.lower (round_index + 1) next_match_index) b0
      let w0 ← orErr winners[0]? b0
      let bA ← orErr
        (setLowerSlot b0 (round_index + 1) next_match_index start_slot w0) b0
      let w1 ← orErr winners[1]? bA
      orErr (setLowerSlot bA (round_index + 1) next_match_index (start_slot + 1) w1) bA
    else pure b0

/-- `advance_players`: route a resolved match's winners/losers to their
destination slots.  Mirrors the statement order of the Python function, so an
IndexError raised mid-way leaves the writes performed so far in the error
state. -/
def advance_players (b0 : DEBracket) (winners losers : List DESlot)
    (bracket_type : String) (round_index match_index : Nat) :
    Except DEBracket DEBracket := do
  let _gf ← orErr b0.grand_final.matches'[0]? b0
  if bracket_type == "upper" then
    let b1 ← advanceUpperWinners b0 winners round_index match_index
    advanceUpperLosers b1 losers round_index match_index
  else if bracket_type == "lower" then
    advanceLowerWinners b0 winners round_index match_index
  else pure b0

/-- The Python truth value of `p.get('trackmania_id') not in [None,"TBD","BYE"]`
(ids are always strings here). -/
def isRealId (t : String) : Bool := t ≠ "TBD" && t ≠ "BYE"

/-- The score-application loop of the double-elimination branch of
`update_match` (`int(...)` is the identity on the integer scores modeled). -/
def applyDEScores (scores : List Int) (ps : List DESlot) : List DESlot :=
  ps.enum.map (fun ip =>
    if ip.1 < scores.length then { ip.2 with score := scores.getD ip.1 0 }
    else ip.2)

/-- Python `sorted(..., key=lambda p: p.get('score', 0), reverse=True)` for
double-elimination slots: score descending, ties stable. -/
def deScoreDescLe (a b : DESlot) : Bool := b.score ≤ a.score

/-- The advancing copies `{... , "score": 0}` built before routing. -/
def resetScore (w : DESlot) : DESlot := { w with score := 0 }

/-- Write the (already-read, hence in-range) match back at its position. -/
def setMatchIn (rounds : List DERound) (r m : Nat) (mt : DEMatch) :
    List DERound :=
  match rounds[r]? with
  | none => rounds
  | some rd => rounds.set r { rd with matches' := rd.matches'.set m mt }

/-- Replace the first match with the given id (the Swiss branch of
`update_match` mutates only `match_to_update`). -/
def updateFirstSwiss (ms : List SwissMatch) (mid : String)
    (f : SwissMatch → SwissMatch) : List SwissMatch :=
  match ms with
  | [] => []
  | m :: rest =>
    if m.id == mid then f m :: rest else m :: updateFirstSwiss rest mid f

/-- The shared tail of the double-elimination branch of `update_match`:
given the addressed match, the threshold and a function writing the updated
match back at its position, apply scores, compute qualification, set
winners/completion and (when routing applies) call `advance_players`. -/
def resolveDEMatch (t : Tournament) (bracket_type : String)
    (round_index match_index : Nat) (scores : List Int) (mt : DEMatch)
    (thr : Int) (setM : DEMatch → DEBracket) : Except Tournament Tournament :=
  let newPlayers := applyDEScores scores mt.players
  let players_with_scores :=
    pySort deScoreDescLe (newPlayers.filter (fun p => isRealId p.trackmania_id))
  let qualified_players := players_with_scores.filter (fun p => thr ≤ p.score)
  if 2 ≤ qualified_players.length then
    let winners := qualified_players.take 2
    let b2 := setM { mt with players := newPlayers, winners := winners
                             is_complete := true }
    if bracket_type ≠ "grand_final" then
      let losers := newPlayers.filter (fun p =>
        winners.all (fun w => w.trackmania_id ≠ p.trackmania_id) &&
        isRealId p.trackmania_id)
      match advance_players b2 (winners.map resetScore) (losers.map resetScore)
          bracket_type round_index match_index with
      | .ok b3 => .ok { t with bracket := some (.de b3) }
      | .error b3 => .error { t with bracket := some (.de b3) }
    else .ok { t with bracket := some (.de b2) }
  else
    let b2 := setM { mt with players := newPlayers, winners := []
                             is_complete := false }
    .ok { t with bracket := some (.de b2) }

/-- `update_match` (the `/api/update_match` handler): Swiss branch re-sorts
and re-flags the addressed match; double-elimination/grand-final branch
applies the qualification rule and routes.  Failures (`Except.error`) carry
the post-mutation state, which equals the input state when the exception is
raised before any write. -/
def update_match (t : Tournament) (bracket_type : String) (match_id : String)
    (round_index match_index : Nat) (scores : List Int) :
    Except Tournament Tournament :=
  if bracket_type == "swiss" then
    match t.bracket with
    | some (.swiss sb) =>
      let upd : SwissMatch → SwissMatch := fun m =>
        { m with players := sortAndFlagTop2 (applySwissScores scores m.players) }
      let sb' : SwissBracket :=
        { sb with swiss_matches := updateFirstSwiss sb.swiss_matches match_id upd }
      .ok { t with bracket := some (.swiss sb') }
    | _ => .error t
  else
    match t.bracket with
    | some (.de b) =>
      if bracket_type == "grand_final" then
        match b.grand_final.matches'[match_index]? with
        | none => .error t
        | some mt =>
          resolveDEMatch t bracket_type round_index match_index scores mt
            t.config.points_for_finals
            (fun mt' => { b with grand_final :=
              { b.grand_final with
                matches' := b.grand_final.matches'.set match_index mt' } })
      else if bracket_type == "upper" then
        match getRoundMatch b.upper round_index match_index with
        | none => .error t
        | some mt =>
          resolveDEMatch t bracket_type round_index match_index scores mt
            t.config.points_to_advance
            (fun mt' => { b with upper := setMatchIn b.upper round_index match_index mt' })
      else if bracket_type == "lower" then
        match getRoundMatch b.lower round_index match_index with
        | none => .error t
        | some mt =>
          resolveDEMatch t bracket_type round_index match_index scores mt
            t.config.points_to_advance
            (fun mt' => { b with lower := setMatchIn b.lower round_index match_index mt' })
      else .error t
    | _ => .error t

/-- `advance_swiss_stage` (the `/api/advance_swiss_stage` handler). -/
def advance_swiss_stage (t : Tournament) : Except Tournament Tournament :=
  match t.bracket, t.bracket_type with
  | some (.swiss sb), "swiss" =>
    let hist1 := histSet sb.history sb.round sb.swiss_matches
    if sb.round = 1 then
      let ms1 := sb.swiss_matches.map (fun m =>
        { m with players := sortAndFlagTop2 m.players })
      let all_players := (ms1.map (fun m => pySort scoreDescLe m.players)).flatten
      let top_8 := all_players.take 8
      let bottom_8 := all_players.drop 8
      let new_matches : List SwissMatch :=
        [⟨"SWISS-R2-M1", "Top 8 - Match 1", (top_8.take 4).map ensureWinnerFlag, none⟩,
         ⟨"SWISS-R2-M2", "Top 8 - Match 2", (top_8.drop 4).map ensureWinnerFlag, none⟩,
         ⟨"SWISS-R2-M3", "Bottom 8 - Match 1", (bottom_8.take 4).map ensureWinnerFlag, none⟩,
         ⟨"SWISS-R2-M4", "Bottom 8 - Match 2", (bottom_8.drop 4).map ensureWinnerFlag, none⟩]
      let sb' : SwissBracket :=
        { sb with swiss_matches := zeroScores new_matches,
                  history := hist1, round := 2 }
      .ok { t with bracket := some (.swiss sb') }
    else if sb.round = 2 then
      let ms1 := sb.swiss_matches.map (fun m =>
        { m with players := sortAndFlagTop2 m.players })
      let all_players := (ms1.map (fun m => pySort scoreDescLe m.players)).flatten
      let final_seeding := pySort swissKeyLe all_players
      let new_matches : List SwissMatch :=
        [⟨"champion", "Champion", (final_seeding.take 4).map ensureWinnerFlag, none⟩,
         ⟨"gold", "Gold", ((final_seeding.drop 4).take 4).map ensureWinnerFlag, none⟩,
         ⟨"silver", "Silver", ((final_seeding.drop 8).take 4).map ensureWinnerFlag, none⟩,
         ⟨"bronze", "Bronze", ((final_seeding.drop 12).take 4).map ensureWinnerFlag, none⟩]
      let sb' : SwissBracket :=
        { sb with stage := "groups",
                  swiss_matches := zeroScores new_matches,
                  history := hist1, round := 3 }
      .ok { t with bracket := some (.swiss sb') }
    else if sb.round = 3 ∨ sb.round = 4 then
      -- `groups = {g['id']: g for g in bracket['matches']}`: on the states
      -- this branch runs on the four ids are distinct, so every match is a
      -- dict value and gets sorted and flagged in place.
      let ms1 := sb.swiss_matches.map (fun m =>
        { m with players := sortAndFlagTop2 m.players })
      let find := fun (gid : String) => ms1.reverse.find? (fun m => m.id == gid)
      match find "champion", find "gold", find "silver", find "bronze" with
      | some ch, some go, some si, some br =>
        let new_gold :=
          if sb.round = 3 then
            pySort seedAscLe (ch.players.drop 2) ++
            pySort seedAscLe (si.players.take 2)
          else ch.players.drop 2 ++ si.players.take 2
        let new_champion := ch.players.take 2 ++ go.players.take 2
        let new_silver := si.players.drop 2 ++ br.players.take 2
        let new_bronze := br.players.drop 2
        let new_matches : List SwissMatch :=
          [⟨"champion", "Champion", new_champion.map ensureWinnerFlag, none⟩,
           ⟨"gold", "Gold", new_gold.map ensureWinnerFlag, none⟩,
           ⟨"silver", "Silver", new_silver.map ensureWinnerFlag, none⟩,
           ⟨"bronze", "Bronze", new_bronze.map ensureWinnerFlag, none⟩]
        let sb' : SwissBracket :=
          { sb with swiss_matches := zeroScores new_matches,
                    history := hist1, round := sb.round + 1 }
        .ok { t with bracket := some (.swiss sb') }
      | _, _, _, _ =>
        -- KeyError on a missing group id: raised after the snapshot was
        -- stored and the groups sorted/flagged in place.
        let sb' : SwissBracket :=
          { sb with swiss_matches := ms1, history := hist1 }
        .error { t with bracket := some (.swiss sb') }
    else
      let sb' : SwissBracket :=
        { sb with swiss_matches := zeroScores sb.swiss_matches, history := hist1 }
      .ok { t with bracket := some (.swiss sb') }
  | _, _ => .error t

/-- `go_back_swiss` (the `/api/go_back_swiss` handler). -/
def go_back_swiss (t : Tournament) : Except Tournament Tournament :=
  match t.bracket, t.bracket_type with
  | some (.swiss sb), "swiss" =>
    if sb.round ≤ 1 then .error t
    else
      match histGet sb.history (sb.round - 1) with
      | none => .error t
      | some prev =>
        let new_round := sb.round - 1
        let hist := histDel sb.history new_round
        let ms := prev.map (fun m =>
          { m with players := m.players.map (fun p =>
              ensureWinnerFlag { p with score := 0 }) })
        .ok { t with bracket := some (.swiss
          { stage := sb.stage, swiss_matches := ms, history := hist
            round := new_round }) }
  | _, _ => .error t

/-- The database state after a handler ran: the mutations survive whether or
not an exception was raised. -/
def resultState {σ : Type} : Except σ σ → σ
  | .ok s => s
  | .error s => s

/-- Whether a handler returned without raising. -/
def isOkE {σ α : Type} : Except σ α → Bool
  | .ok _ => true
  | .error _ => false

/-- Read one slot of the double-elimination bracket (section is `"upper"`,
`"lower"` or `"grand_final"`). -/
def readSlot (b : DEBracket) (sec : String) (r m s : Nat) : Option DESlot :=
  if sec = "grand_final" then
    (b.grand_final.matches'[m]?).bind (fun mt => mt.players[s]?)
  else if sec = "upper" then
    (getRoundMatch b.upper r m).bind (fun mt => mt.players[s]?)
  else if sec = "lower" then
    (getRoundMatch b.lower r m).bind (fun mt => mt.players[s]?)
  else none

/-- The match `update_match` addresses for a non-Swiss `bracket_type`
(`none` when the lookup would raise). -/
def deMatchAt (t : Tournament) (bracket_type : String) (r m : Nat) :
    Option DEMatch :=
  match t.bracket with
  | some (.de b) =>
    if bracket_type = "grand_final" then b.grand_final.matches'[m]?
    else if bracket_type = "upper" then getRoundMatch b.upper r m
    else if bracket_type = "lower" then getRoundMatch b.lower r m
    else none
  | _ => none

/-- The Swiss bracket stored in a tournament state, when there is one. -/
def swissOf (t : Tournament) : Option SwissBracket :=
  match t.bracket with
  | some (.swiss s) => some s
  | _ => none

/-- The double-elimination bracket stored in a tournament state. -/
def deOf (t : Tournament) : Option DEBracket :=
  match t.bracket with
  | some (.de b) => some b
  | _ => none

/-- The Swiss round counter. -/
def swissRound (t : Tournament) : Option Nat := (swissOf t).map (fun s => s.round)

/-- The Swiss stage tag. -/
def swissStageOf (t : Tournament) : Option String :=
  (swissOf t).map (fun s => s.stage)

/-- The Swiss live match list. -/
def swissMatchesOf (t : Tournament) : Option (List SwissMatch) :=
  (swissOf t).map (fun s => s.swiss_matches)

/-- The seeds flagged `is_winner = true` in the first Swiss match. -/
def swissM1Winners (t : Tournament) : Option (List Int) :=
  ((swissOf t).bind (fun s => s.swiss_matches.head?)).map (fun m =>
    (m.players.filter (fun p => p.is_winner == some true)).map (fun p => p.seed))

/-- A sample roster player with id/name `"Pi"` and seed `i`. -/
def samplePlayer (i : Nat) : Player :=
  { trackmania_id := "P" ++ toString i, trackmania_name := "P" ++ toString i
    display_bracket_name := "P" ++ toString i, seed := some (Int.ofNat i) }

/-- The sample roster `P1..Pn`, seeded `1..n` in order. -/
def sampleRoster (n : Nat) : List Player :=
  (List.range n).map (fun i => samplePlayer (i + 1))

/-- The default thresholds of `config.json`. -/
def sampleConfig : Config := { points_to_advance := 70, points_for_finals := 100 }

/-- A fresh double-elimination tournament over `P1..Pn`. -/
def sampleDET (n : Nat) : Tournament :=
  { bracket_type := "double_elimination"
    bracket := (generate_double_elim_bracket (sampleRoster n)).map Bracket.de
    config := sampleConfig }

/-- A fresh Swiss tournament over `P1..P16`. -/
def sampleSwissT : Tournament :=
  { bracket_type := "swiss"
    bracket := (generate_swiss_bracket (sampleRoster 16)).map Bracket.swiss
    config := sampleConfig }

/-- An empty placeholder bracket (never produced by the generator). -/
def emptyDEB : DEBracket := ⟨[], [], ⟨"", []⟩⟩

/-- The generated 8-player bracket. -/
def sampleB8 : DEBracket :=
  (generate_double_elim_bracket (sampleRoster 8)).getD emptyDEB

/-- A distinguishable slot value to route through the bracket. -/
def routedSlot (s : String) : DESlot :=
  { trackmania_id := s, trackmania_name := s, display_bracket_name := s
    seed := none, score := 0 }

/-- The 8-player bracket after routing the winners of lower round 1 match 1
(0-based `("lower", 0, 0)`). -/
def sampleB8a : DEBracket :=
  resultState (advance_players sampleB8 [routedSlot "W1", routedSlot "W2"] []
    "lower" 0 0)

/-- `sampleB8a` after additionally routing the result of upper round 2
match 1 (0-based `("upper", 1, 0)`). -/
def sampleB8b : DEBracket :=
  resultState (advance_players sampleB8a [routedSlot "X1", routedSlot "X2"]
    [routedSlot "Y1", routedSlot "Y2"] "upper" 1 0)

/-- Every slot dict stored anywhere in a double-elimination bracket. -/
def allDESlots (b : DEBracket) : List DESlot :=
  (((b.upper ++ b.lower ++ [b.grand_final]).map (fun r =>
    (r.matches'.map (fun mt => mt.players)).flatten)).flatten)

/-- Number of real (non-TBD/non-BYE) entrant slots placed in the bracket. -/
def realPlacedCount (b : DEBracket) : Nat :=
  (allDESlots b).countP (fun p => isRealId p.trackmania_id)

/-- The slots of the first upper round's matches. -/
def round1Slots (b : DEBracket) : List DESlot :=
  (((b.upper.getD 0 ⟨"", []⟩).matches').map (fun mt => mt.players)).flatten

/-- The qualification list `update_match` computes for a double-elimination
match: real players, sorted score-descending (stable), scoring at least the
threshold. -/
def qualifiedOf (thr : Int) (ps : List DESlot) : List DESlot :=
  (pySort deScoreDescLe (ps.filter (fun p => isRealId p.trackmania_id))).filter
    (fun p => thr ≤ p.score)

/-- Python `next((m for m in bracket['matches'] if m['id'] == match_id), None)`. -/
def findFirstSwiss (ms : List SwissMatch) (mid : String) : Option SwissMatch :=
  ms.find? (fun m => m.id == mid)

/-- Forget the winner flag (used to compare slot lists modulo re-flagging). -/
def stripFlag (p : SwissSlot) : SwissSlot := { p with is_winner := none }

/-- The per-match effect of a Swiss rollback on the restored snapshot:
zero the scores and backfill a missing winner flag with `false`. -/
def rollbackReset (m : SwissMatch) : SwissMatch :=
  { m with players := m.players.map (fun p => ensureWinnerFlag { p with score := 0 }) }

/-- A routing destination: section (`"upper"`/`"lower"`/`"grand_final"`),
round index, match index, slot index. -/
abbrev RouteLoc : Type := String × Nat × Nat × Nat

/-- The destination slots `advance_players` writes the two winners of source
`(sec, r, m)` into (mirrors its branching; an empty list means the winners
are dropped by the destination-count guard). -/
def winnerLocsOf (b : DEBracket) (sec : String) (r m : Nat) : List RouteLoc :=
  if sec = "upper" then
    if b.upper.length ≤ r + 1 then
      [("grand_final", 0, 0, 0), ("grand_final", 0, 0, 1)]
    else
      [("upper", r + 1, m / 2, (m % 2) * 2), ("upper", r + 1, m / 2, (m % 2) * 2 + 1)]
  else
    if b.lower.length ≤ r + 1 then
      [("grand_final", 0, 0, 2), ("grand_final", 0, 0, 3)]
    else if m / 2 < ((b.lower.getD (r + 1) ⟨"", []⟩).matches').length then
      [("lower", r + 1, m / 2, (m % 2) * 2), ("lower", r + 1, m / 2, (m % 2) * 2 + 1)]
    else []

/-- The destination slots `advance_players` writes the two losers of source
`(sec, r, m)` into (empty when the computed lower round is out of range, or
for lower-bracket sources, whose losers are eliminated). -/
def loserLocsOf (b : DEBracket) (sec : String) (r m : Nat) : List RouteLoc :=
  if sec = "upper" then
    let lb_round_index := if r = 0 then 0 else (r - 1) * 2 + 1
    if lb_round_index < b.lower.length then
      [("lower", lb_round_index, m / 2, (m % 2) * 2),
       ("lower", lb_round_index, m / 2, (m % 2) * 2 + 1)]
    else []
  else []

/-- Whether a destination slot actually exists in the bracket. -/
def locExists (b : DEBracket) (loc : RouteLoc) : Bool :=
  (readSlot b loc.1 loc.2.1 loc.2.2.1 loc.2.2.2).isSome

/-- Every source position of the bracket: one entry per upper or lower match
(the grand final is not a routing source). -/
def sourcesOf (b : DEBracket) : List (String × Nat × Nat) :=
  ((List.range b.upper.length).map (fun r =>
    (List.range ((b.upper.getD r ⟨"", []⟩).matches').length).map
      (fun m => ("upper", r, m)))).flatten ++
  ((List.range b.lower.length).map (fun r =>
    (List.range ((b.lower.getD r ⟨"", []⟩).matches').length).map
      (fun m => ("lower", r, m)))).flatten

/-- All destination slots a single source match writes. -/
def allLocsOf (b : DEBracket) (src : String × Nat × Nat) : List RouteLoc :=
  winnerLocsOf b src.1 src.2.1 src.2.2 ++ loserLocsOf b src.1 src.2.1 src.2.2

/-- No destination slot appears in two different lists. -/
def pairwiseDisjointLocs : List (List RouteLoc) → Bool
  | [] => true
  | ls :: rest =>
    (rest.all (fun ls2 => ls.all (fun x => ls2.all (fun y => decide (x ≠ y))))) &&
    pairwiseDisjointLocs rest

/-- Bracket integrity in the sense of the specification: every non-final
match has a reachable destination for its winners (upper → upper/final,
lower → lower/final) and, for upper matches, for its losers (upper-loser →
lower), and no two distinct source matches write the same destination slot. -/
def integrityCheck (b : DEBracket) : Bool :=
  ((sourcesOf b).all (fun src =>
    (!(winnerLocsOf b src.1 src.2.1 src.2.2).isEmpty) &&
    (winnerLocsOf b src.1 src.2.1 src.2.2).all (locExists b) &&
    (src.1 != "upper" ||
      ((!(loserLocsOf b src.1 src.2.1 src.2.2).isEmpty) &&
       (loserLocsOf b src.1 src.2.1 src.2.2).all (locExists b))))) &&
  pairwiseDisjointLocs ((sourcesOf b).map (allLocsOf b))

/-- The match counts of a round list. -/
def roundCounts (rounds : List DERound) : List Nat :=
  rounds.map (fun r => r.matches'.length)

/-- Shape facts about a double-elimination bracket that the router relies
on; `routerShape_generate` shows every generator-produced bracket satisfies
them (and they are preserved by slot writes, which keep all lengths). -/
structure RouterShape (b : DEBracket) : Prop where
  gf_len : b.grand_final.matches'.length = 1
  gf_slots : ∀ mt ∈ b.grand_final.matches', mt.players.length = 4
  lower_slots : ∀ rd ∈ b.lower, ∀ mt ∈ rd.matches', mt.players.length = 4
  lower_chain : ∀ i, i + 1 < b.lower.length →
    (((b.lower.getD i ⟨"", []⟩).matches').length - 1) / 2 <
      ((b.lower.getD (i + 1) ⟨"", []⟩).matches').length

/-- The sample Swiss tournament after four stage advances (its round is 5,
past the terminal round-4 transition). -/
def sampleSwissAfter4 : Tournament :=
  resultState (advance_swiss_stage (resultState (advance_swiss_stage
    (resultState (advance_swiss_stage (resultState
      (advance_swiss_stage sampleSwissT)))))))

/-- The Swiss bracket value inside `sampleSwissAfter4`. -/
def sampleSwissB5 : SwissBracket :=
  (swissOf sampleSwissAfter4).getD ⟨"", [], [], 0⟩

/-- The freshly generated 16-player Swiss bracket value (round 1). -/
def sampleSwissB1 : SwissBracket :=
  (generate_swiss_bracket (sampleRoster 16)).getD ⟨"", [], [], 0⟩

/-! ## Theorems -/

/-- Looking up the key just written into the history dict. -/
theorem histGet_histSet_self (h : List (Nat × List SwissMatch)) (k : Nat)
    (v : List SwissMatch) : histGet (histSet h k v) k = some v := by
  simp [histGet, histSet]

/-- Looking up a key the history delete just removed. -/
theorem histGet_histDel_self (h : List (Nat × List SwissMatch)) (k : Nat) :
    histGet (histDel h k) k = none := by
  have hf : List.find? (fun e => decide (e.1 = k))
      (List.filter (fun e => decide (e.1 ≠ k)) h) = none := by
    rw [List.find?_eq_none]
    intro x hx
    simp only [List.mem_filter] at hx
    simpa using hx.2
  simp [histGet, histDel, hf]

/-- C1, counterexample.  The claim fails already at roster size 8: the
winners of lower round 1 match 1 and the losers of upper round 2 match 1 are
two distinct source matches that both write lower round 2 match 1, slots 0–1
(`integrityCheck` fails, and routing the two sources in sequence shows the
second write destroying the first). -/
theorem C1_counterexample :
    integrityCheck sampleB8 = false ∧
    isOkE (advance_players sampleB8 [routedSlot "W1", routedSlot "W2"] []
      "lower" 0 0) = true ∧
    readSlot sampleB8a "lower" 1 0 0 = some (routedSlot "W1") ∧
    isOkE (advance_players sampleB8a [routedSlot "X1", routedSlot "X2"]
      [routedSlot "Y1", routedSlot "Y2"] "upper" 1 0) = true ∧
    readSlot sampleB8b "lower" 1 0 0 = some (routedSlot "Y1") ∧
    routedSlot "W1" ≠ routedSlot "Y1" := by
  decide

/-- C2, counterexample.  For the legal roster size `N = 1` the generator's
`while len(current_players) > 2` loop never runs, so the upper bracket is
empty and zero real entrants are placed, not `N = 1`. -/
theorem C2_counterexample :
    (generate_double_elim_bracket (sampleRoster 1)).map realPlacedCount
      = some 0 ∧
    (sampleRoster 1).length = 1 := by
  decide

/-- C4, counterexample.  For the roster of size `N = 1` (with `m = 1`, so
the claim asserts an Upper Round 1 match 0 consisting of the single seed),
the generated bracket has no upper rounds at all. -/
theorem C4_counterexample :
    (generate_double_elim_bracket (sampleRoster 1)).map
      (fun (b : DEBracket) => b.upper.length) = some 0 := by
  decide

/-- C3, counterexample.  Resolving the single upper match of a 3-player
bracket with scores `[70, 70, 0]` qualifies two winners but leaves only one
loser, so `advance_players` raises IndexError at `losers[1]` after having
already written the scores, the winner list, the completion flag, both
grand-final winner slots and one lower-bracket loser slot: the failed call
leaves the bracket mutated. -/
theorem C3_counterexample :
    isOkE (update_match (sampleDET 3) "upper" "" 0 0 [70, 70, 0]) = false ∧
    resultState (update_match (sampleDET 3) "upper" "" 0 0 [70, 70, 0])
      ≠ sampleDET 3 := by
  decide

/-- C7, counterexample.  Reaching round 5 by four successful advances and
then running one more advance (which succeeds, C10) followed by a rollback
does not restore the pre-advance bracket: the advance leaves the round at 5
while the rollback still decrements it, landing on the round-4 snapshot. -/
theorem C7_counterexample :
    swissRound sampleSwissAfter4 = some 5 ∧
    isOkE (advance_swiss_stage sampleSwissAfter4) = true ∧
    isOkE (go_back_swiss (resultState (advance_swiss_stage sampleSwissAfter4)))
      = true ∧
    swissRound (resultState (go_back_swiss (resultState
      (advance_swiss_stage sampleSwissAfter4)))) = some 4 := by
  decide

/-- C10: on a Swiss bracket whose round is 5 or more, `advance_swiss_stage`
still succeeds: it snapshots the current matches under the current round
number, zeroes every slot score, and leaves the match list (composition,
order, winner flags), the stage and the round number otherwise unchanged. -/
theorem C10_advance_past_terminal_round (sb : SwissBracket) (cfg : Config)
    (h5 : 5 ≤ sb.round) :
    isOkE (advance_swiss_stage ⟨"swiss", some (.swiss sb), cfg⟩) = true ∧
    swissRound (resultState (advance_swiss_stage
      ⟨"swiss", some (.swiss sb), cfg⟩)) = some sb.round ∧
    swissStageOf (resultState (advance_swiss_stage
      ⟨"swiss", some (.swiss sb), cfg⟩)) = some sb.stage ∧
    swissMatchesOf (resultState (advance_swiss_stage
      ⟨"swiss", some (.swiss sb), cfg⟩)) = some (zeroScores sb.swiss_matches) ∧
    (swissOf (resultState (advance_swiss_stage
      ⟨"swiss", some (.swiss sb), cfg⟩))).bind
      (fun s => histGet s.history sb.round) = some sb.swiss_matches := by
  have h1 : sb.round ≠ 1 := by omega
  have h2 : sb.round ≠ 2 := by omega
  have h34 : ¬(sb.round = 3 ∨ sb.round = 4) := by omega
  simp [advance_swiss_stage, h1, h2, h34, isOkE, resultState, swissRound,
    swissStageOf, swissMatchesOf, swissOf, histGet_histSet_self]

/-- C10, witness: the theorem applied to the concrete round-5 bracket
obtained from four stage advances of the sample Swiss tournament. -/
theorem C10_witness :
    5 ≤ sampleSwissB5.round ∧
    isOkE (advance_swiss_stage ⟨"swiss", some (.swiss sampleSwissB5),
      sampleConfig⟩) = true ∧
    swissRound (resultState (advance_swiss_stage ⟨"swiss",
      some (.swiss sampleSwissB5), sampleConfig⟩)) = some sampleSwissB5.round :=
  ⟨by decide,
   (C10_advance_past_terminal_round sampleSwissB5 sampleConfig (by decide)).1,
   (C10_advance_past_terminal_round sampleSwissB5 sampleConfig (by decide)).2.1⟩

/-- A successful stage advance out of rounds 1–4 increments the round,
snapshots the pre-advance matches under the pre-advance round number, and
keeps the tournament in Swiss form. -/
theorem advance_ok_round_succ (sb : SwissBracket) (cfg : Config)
    (t' : Tournament) (h1 : 1 ≤ sb.round) (h4 : sb.round ≤ 4)
    (hok : advance_swiss_stage ⟨"swiss", some (.swiss sb), cfg⟩ = .ok t') :
    ∃ sb' : SwissBracket, t' = ⟨"swiss", some (.swiss sb'), cfg⟩ ∧
      sb'.round = sb.round + 1 ∧
      sb'.history = histSet sb.history sb.round sb.swiss_matches := by
  obtain ⟨st, ms, hist, rd⟩ := sb
  simp only at h1 h4 ⊢
  interval_cases rd
  · simp only [advance_swiss_stage] at hok
    norm_num at hok
    exact ⟨_, hok.symm, by simp, by simp⟩
  · simp only [advance_swiss_stage] at hok
    norm_num at hok
    exact ⟨_, hok.symm, by simp, by simp⟩
  · simp only [advance_swiss_stage] at hok
    norm_num at hok
    rcases hch : (ms.map (fun m =>
        { m with players := sortAndFlagTop2 m.players })).reverse.find?
        (fun m => m.id == "champion") with _ | ch <;>
      rcases hgo : (ms.map (fun m =>
        { m with players := sortAndFlagTop2 m.players })).reverse.find?
        (fun m => m.id == "gold") with _ | go <;>
      rcases hsi : (ms.map (fun m =>
        { m with players := sortAndFlagTop2 m.players })).reverse.find?
        (fun m => m.id == "silver") with _ | si <;>
      rcases hbr : (ms.map (fun m =>
        { m with players := sortAndFlagTop2 m.players })).reverse.find?
        (fun m => m.id == "bronze") with _ | br <;>
      rw [hch, hgo, hsi, hbr] at hok <;> cases hok <;>
      exact ⟨_, rfl, rfl, rfl⟩
  · simp only [advance_swiss_stage] at hok
    norm_num at hok
    rcases hch : (ms.map (fun m =>
        { m with players := sortAndFlagTop2 m.players })).reverse.find?
        (fun m => m.id == "champion") with _ | ch <;>
      rcases hgo : (ms.map (fun m =>
        { m with players := sortAndFlagTop2 m.players })).reverse.find?
        (fun m => m.id == "gold") with _ | go <;>
      rcases hsi : (ms.map (fun m =>
        { m with players := sortAndFlagTop2 m.players })).reverse.find?
        (fun m => m.id == "silver") with _ | si <;>
      rcases hbr : (ms.map (fun m =>
        { m with players := sortAndFlagTop2 m.players })).reverse.find?
        (fun m => m.id == "bronze") with _ | br <;>
      rw [hch, hgo, hsi, hbr] at hok <;> cases hok <;>
      exact ⟨_, rfl, rfl, rfl⟩

/-- On a Swiss bracket past round 1 whose history holds a snapshot for the
previous round, a rollback restores that snapshot (scores zeroed, winner
flags backfilled), decrements the round and deletes the restored snapshot. -/
theorem go_back_swiss_computes (sb' : SwissBracket) (cfg : Config)
    (prev : List SwissMatch) (h2 : 2 ≤ sb'.round)
    (hsnap : histGet sb'.history (sb'.round - 1) = some prev) :
    go_back_swiss ⟨"swiss", some (.swiss sb'), cfg⟩ =
      .ok ⟨"swiss", some (.swiss ⟨sb'.stage, prev.map rollbackReset,
        histDel sb'.history (sb'.round - 1), sb'.round - 1⟩), cfg⟩ := by
  have hr : ¬ sb'.round ≤ 1 := by omega
  simp [go_back_swiss, hr, hsnap, rollbackReset]

/-- C7 (amended): for a Swiss bracket in rounds 1–4 (the advances that
increment the round), a successful `advance_swiss_stage` followed by
`rollback_swiss_stage` restores the pre-advance matches and round, except
that all scores are zeroed and any absent winner flag is backfilled as
`false`; the rollback consumes (deletes) the snapshot stored for the
restored round.  (For rounds ≥ 5 the advance leaves the round unchanged
while the rollback still decrements it, so the inverse property fails
there — see the C7 counterexample.) -/
theorem C7_advance_rollback_inverse (sb : SwissBracket) (cfg : Config)
    (h1 : 1 ≤ sb.round) (h4 : sb.round ≤ 4)
    (hok : isOkE (advance_swiss_stage ⟨"swiss", some (.swiss sb), cfg⟩) = true) :
    isOkE (go_back_swiss (resultState (advance_swiss_stage
      ⟨"swiss", some (.swiss sb), cfg⟩))) = true ∧
    swissRound (resultState (go_back_swiss (resultState (advance_swiss_stage
      ⟨"swiss", some (.swiss sb), cfg⟩)))) = some sb.round ∧
    swissMatchesOf (resultState (go_back_swiss (resultState
      (advance_swiss_stage ⟨"swiss", some (.swiss sb), cfg⟩)))) =
      some (sb.swiss_matches.map rollbackReset) ∧
    (swissOf (resultState (go_back_swiss (resultState (advance_swiss_stage
      ⟨"swiss", some (.swiss sb), cfg⟩))))).bind
      (fun s => histGet s.history sb.round) = none := by
  cases he : advance_swiss_stage ⟨"swiss", some (.swiss sb), cfg⟩ with
  | error t1 => rw [he] at hok; cases hok
  | ok t1 =>
    obtain ⟨sb', ht1, hrd, hh⟩ := advance_ok_round_succ sb cfg t1 h1 h4 he
    subst ht1
    have h2 : 2 ≤ sb'.round := by omega
    have hsnap : histGet sb'.history (sb'.round - 1) = some sb.swiss_matches := by
      rw [hh, hrd]
      simpa using histGet_histSet_self sb.history sb.round sb.swiss_matches
    have hgb := go_back_swiss_computes sb' cfg sb.swiss_matches h2 hsnap
    simp only [resultState]
    rw [hgb]
    refine ⟨rfl, ?_, ?_, ?_⟩
    · simp [resultState, swissRound, swissOf]
      omega
    · simp [resultState, swissMatchesOf, swissOf]
    · simp only [resultState, swissOf, Option.bind]
      have : sb'.round - 1 = sb.round := by omega
      rw [this, hh]
      exact histGet_histDel_self (histSet sb.history sb.round sb.swiss_matches)
        sb.round

/-- C7, witness: the inverse property applied to the freshly generated
16-player Swiss bracket (round 1). -/
theorem C7_witness :
    (1 ≤ sampleSwissB1.round ∧ sampleSwissB1.round ≤ 4 ∧
      isOkE (advance_swiss_stage ⟨"swiss", some (.swiss sampleSwissB1),
        sampleConfig⟩) = true) ∧
    swissRound (resultState (go_back_swiss (resultState (advance_swiss_stage
      ⟨"swiss", some (.swiss sampleSwissB1), sampleConfig⟩)))) =
      some sampleSwissB1.round :=
  ⟨⟨by decide, by decide, by decide⟩,
   (C7_advance_rollback_inverse sampleSwissB1 sampleConfig (by decide)
     (by decide) (by decide)).2.1⟩

/-- C3 (amended): failing `advance_swiss_stage` calls on a non-Swiss state,
all failing `rollback_swiss_stage` calls, and `resolve_match` calls that fail
during the initial lookup (wrong bracket type or shape, invalid
round/match index) leave the bracket exactly as it was; but a `resolve_match`
that fails mid-routing leaves partial writes behind (the 3-player bracket
resolved with `[70,70,0]` fails at `losers[1]` with the scores, winners,
completion flag and three routed slots already written). -/
theorem C3_failed_calls_frame :
    (∀ t : Tournament,
      ¬(t.bracket_type = "swiss" ∧ ∃ sb, t.bracket = some (.swiss sb)) →
      advance_swiss_stage t = .error t) ∧
    (∀ t t' : Tournament, go_back_swiss t = .error t' → t' = t) ∧
    (∀ (t : Tournament) (mid : String) (r m : Nat) (scores : List Int),
      (∀ sb, t.bracket ≠ some (.swiss sb)) →
      update_match t "swiss" mid r m scores = .error t) ∧
    (∀ (t : Tournament) (btype mid : String) (r m : Nat) (scores : List Int),
      (btype = "upper" ∨ btype = "lower" ∨ btype = "grand_final") →
      deMatchAt t btype r m = none →
      update_match t btype mid r m scores = .error t) ∧
    (isOkE (update_match (sampleDET 3) "upper" "" 0 0 [70, 70, 0]) = false ∧
      resultState (update_match (sampleDET 3) "upper" "" 0 0 [70, 70, 0])
        ≠ sampleDET 3) := by
  refine ⟨?_, ?_, ?_, ?_, by decide, by decide⟩
  · intro t hnot
    unfold advance_swiss_stage
    split
    · rename_i sb hbr hty
      exact absurd ⟨hty, sb, hbr⟩ hnot
    · rfl
  · intro t t' herr
    unfold go_back_swiss at herr
    split at herr
    · split at herr
      · exact (Except.error.inj herr).symm
      · split at herr
        · exact (Except.error.inj herr).symm
        · cases herr
    · exact (Except.error.inj herr).symm
  · intro t mid r m scores hnot
    unfold update_match
    simp only [beq_self_eq_true, if_pos]
  · intro t btype mid r m scores hb hnone
    unfold update_match
    have hsw : (btype == "swiss") = false := by
      rcases hb with rfl | rfl | rfl <;> rfl
    rw [hsw]
    simp only [Bool.false_eq_true, if_false]
    cases hbr : t.bracket with
    | none => rfl
    | some br =>
      cases br with
      | swiss sb => rfl
      | de b =>
        unfold deMatchAt at hnone
        rw [hbr] at hnone
        rcases hb with rfl | rfl | rfl
        · simp only [String.reduceEq, String.reduceBEq, reduceIte,
            Bool.false_eq_true, if_false, if_true] at hnone ⊢
          rw [hnone]
        · simp only [String.reduceEq, String.reduceBEq, reduceIte,
            Bool.false_eq_true, if_false, if_true] at hnone ⊢
          rw [hnone]
        · simp only [String.reduceEq, String.reduceBEq, reduceIte,
            Bool.false_eq_true, if_false, if_true] at hnone ⊢
          rw [hnone]

/-- C3, witness: the frame properties applied to the concrete 3-player
double-elimination tournament (a non-Swiss state for the stage operations,
and an out-of-range round index for the resolver). -/
theorem C3_witness :
    (advance_swiss_stage (sampleDET 3) = .error (sampleDET 3)) ∧
    (go_back_swiss (sampleDET 3) = .error (sampleDET 3) → sampleDET 3 = sampleDET 3) ∧
    (deMatchAt (sampleDET 3) "upper" 5 0 = none ∧
      update_match (sampleDET 3) "upper" "" 5 0 [1] = .error (sampleDET 3)) :=
  ⟨C3_failed_calls_frame.1 (sampleDET 3) (fun h => absurd h.1 (by decide)),
   C3_failed_calls_frame.2.1 (sampleDET 3) (sampleDET 3),
   by decide,
   C3_failed_calls_frame.2.2.2.1 (sampleDET 3) "upper" "" 5 0 [1]
     (Or.inl rfl) (by decide)⟩

/-- Finding by id after `updateFirstSwiss` returns the updated match, for
id-preserving updates. -/
theorem findFirst_updateFirst (ms : List SwissMatch) (mid : String)
    (f : SwissMatch → SwissMatch) (hid : ∀ m, (f m).id = m.id) :
    findFirstSwiss (updateFirstSwiss ms mid f) mid =
      (findFirstSwiss ms mid).map f := by
  induction ms with
  | nil => rfl
  | cons m rest ih =>
    by_cases h : (m.id == mid) = true
    · simp [findFirstSwiss, updateFirstSwiss, h, hid]
    · simp only [findFirstSwiss, updateFirstSwiss, h] at ih ⊢
      simp only [Bool.false_eq_true, if_false, List.find?_cons, h, hid m]
      exact ih

/-- Matches with a different id survive `updateFirstSwiss` unchanged. -/
theorem mem_updateFirstSwiss_of_ne (ms : List SwissMatch) (mid : String)
    (f : SwissMatch → SwissMatch) (m' : SwissMatch) (hm : m' ∈ ms)
    (hne : m'.id ≠ mid) : m' ∈ updateFirstSwiss ms mid f := by
  induction ms with
  | nil => cases hm
  | cons m rest ih =>
    rcases hm with _ | hm'
    · have : (m'.id == mid) = false := by simpa using hne
      simp [updateFirstSwiss, this]
    · rename_i hmem
      by_cases h : (m.id == mid) = true
      · simp [updateFirstSwiss, h]
        right
        exact hmem
      · simp only [updateFirstSwiss, h, Bool.false_eq_true, if_false]
        exact List.mem_cons_of_mem m (ih hmem)

/-- Re-flagging does not change the slot modulo its winner flag. -/
theorem stripFlag_flagged (ps : List SwissSlot) :
    (sortAndFlagTop2 ps).map stripFlag =
      (pySort swissKeyLe ps).map stripFlag := by
  simp only [sortAndFlagTop2, List.map_map]
  have : ∀ l : List SwissSlot,
      l.enum.map (stripFlag ∘ fun ip => { ip.2 with is_winner := some (ip.1 < 2) })
        = l.map stripFlag := by
    intro l
    have h1 : (stripFlag ∘ fun ip : Nat × SwissSlot =>
        { ip.2 with is_winner := some (ip.1 < 2) }) =
        (fun ip : Nat × SwissSlot => stripFlag ip.2) := by
      funext ip
      rfl
    rw [h1]
    have h2 : (fun ip : Nat × SwissSlot => stripFlag ip.2) =
        (stripFlag ∘ Prod.snd) := rfl
    rw [h2, ← List.map_map, List.enum_map_snd]
  exact this (pySort swissKeyLe ps)

/-- The flagged sorted list is a permutation, modulo winner flags, of the
score-applied slot list. -/
theorem sortAndFlagTop2_perm (ps : List SwissSlot) :
    ((sortAndFlagTop2 ps).map stripFlag).Perm (ps.map stripFlag) := by
  rw [stripFlag_flagged]
  exact (List.perm_insertionSort _ ps).map stripFlag

/-- `swissKeyLe` is total. -/
theorem swissKeyLe_total (a b : SwissSlot) :
    swissKeyLe a b = true ∨ swissKeyLe b a = true := by
  simp only [swissKeyLe, Bool.or_eq_true, decide_eq_true_eq, Bool.and_eq_true,
    beq_iff_eq]
  omega

/-- `swissKeyLe` is transitive. -/
theorem swissKeyLe_trans (a b c : SwissSlot) (hab : swissKeyLe a b = true)
    (hbc : swissKeyLe b c = true) : swissKeyLe a c = true := by
  simp only [swissKeyLe, Bool.or_eq_true, decide_eq_true_eq, Bool.and_eq_true,
    beq_iff_eq] at hab hbc ⊢
  omega

/-- The flagged sorted list is sorted by `(score desc, seed asc)`. -/
theorem sortAndFlagTop2_sorted (ps : List SwissSlot) :
    (sortAndFlagTop2 ps).Pairwise (fun a b => swissKeyLe a b = true) := by
  letI : IsTotal SwissSlot (fun a b => swissKeyLe a b = true) := ⟨swissKeyLe_total⟩
  letI : IsTrans SwissSlot (fun a b => swissKeyLe a b = true) :=
    ⟨fun a b c => swissKeyLe_trans a b c⟩
  have hs : (pySort swissKeyLe ps).Pairwise (fun a b => swissKeyLe a b = true) :=
    List.sorted_insertionSort _ ps
  rw [List.pairwise_iff_getElem] at hs ⊢
  intro i j hi hj hij
  simp only [sortAndFlagTop2, List.length_map, List.enum_length] at hi hj
  simp only [sortAndFlagTop2, List.getElem_map, List.getElem_enum]
  exact hs i j hi hj hij

/-- C8: resolving a Swiss match re-sorts its slots by score descending with
seed ascending as tiebreak (stably), flags exactly the first two sorted
slots as winners and the rest as non-winners, performs no routing (only the
addressed match changes; stage, round, history and every other match are
untouched), and in particular the fresh 16-entrant bracket's Match 1 (seeds
1–4) with scores `[3,1,2,0]` ends with seeds `{1,3}` flagged as winners. -/
theorem C8_swiss_resolve (sb : SwissBracket) (cfg : Config) (mid : String)
    (r m : Nat) (scores : List Int) (mt : SwissMatch)
    (hfind : findFirstSwiss sb.swiss_matches mid = some mt) :
    update_match ⟨"swiss", some (.swiss sb), cfg⟩ "swiss" mid r m scores =
      .ok ⟨"swiss", some (.swiss ⟨sb.stage,
        updateFirstSwiss sb.swiss_matches mid (fun mm =>
          { mm with players := sortAndFlagTop2 (applySwissScores scores mm.players) }),
        sb.history, sb.round⟩), cfg⟩ ∧
    findFirstSwiss (updateFirstSwiss sb.swiss_matches mid (fun mm =>
        { mm with players := sortAndFlagTop2 (applySwissScores scores mm.players) }))
        mid =
      some { mt with players := sortAndFlagTop2 (applySwissScores scores mt.players) } ∧
    ((sortAndFlagTop2 (applySwissScores scores mt.players)).map stripFlag).Perm
      ((applySwissScores scores mt.players).map stripFlag) ∧
    (sortAndFlagTop2 (applySwissScores scores mt.players)).Pairwise
      (fun a b => swissKeyLe a b = true) ∧
    (∀ i (h : i < (sortAndFlagTop2 (applySwissScores scores mt.players)).length),
      ((sortAndFlagTop2 (applySwissScores scores mt.players)).get ⟨i, h⟩).is_winner
        = some (decide (i < 2))) ∧
    (∀ m' ∈ sb.swiss_matches, m'.id ≠ mid →
      m' ∈ updateFirstSwiss sb.swiss_matches mid (fun mm =>
        { mm with players := sortAndFlagTop2 (applySwissScores scores mm.players) })) ∧
    swissM1Winners (resultState (update_match sampleSwissT "swiss"
      "SWISS-R1-M1" 0 0 [3, 1, 2, 0])) = some [1, 3] := by
  refine ⟨rfl, ?_, sortAndFlagTop2_perm _, sortAndFlagTop2_sorted _, ?_, ?_,
    by decide⟩
  · rw [findFirst_updateFirst sb.swiss_matches mid (fun mm =>
      { mm with players := sortAndFlagTop2 (applySwissScores scores mm.players) })
      (fun mm => rfl), hfind]
    rfl
  · intro i h
    simp [sortAndFlagTop2, List.getElem_enum]
  · intro m' hm hne
    exact mem_updateFirstSwiss_of_ne _ _ _ _ hm hne

/-- C8, witness: the resolution theorem applied to the fresh 16-player
bracket's Match 1 with scores `[3,1,2,0]`. -/
theorem C8_witness :
    (findFirstSwiss sampleSwissB1.swiss_matches "SWISS-R1-M1" =
      some (sampleSwissB1.swiss_matches.headD ⟨"", "", [], none⟩)) ∧
    ((sortAndFlagTop2 (applySwissScores [3, 1, 2, 0]
      (sampleSwissB1.swiss_matches.headD ⟨"", "", [], none⟩).players)).Pairwise
      (fun a b => swissKeyLe a b = true)) :=
  ⟨by decide,
   (C8_swiss_resolve sampleSwissB1 sampleConfig "SWISS-R1-M1" 0 0 [3, 1, 2, 0]
     (sampleSwissB1.swiss_matches.headD ⟨"", "", [], none⟩) (by decide)).2.2.2.1⟩

/-- Match-level reads after a slot write into a round list. -/
theorem getRoundMatch_setRoundSlot (rounds : List DERound) (r m s : Nat)
    (v : DESlot) (rounds' : List DERound)
    (h : setRoundSlot rounds r m s v = some rounds') (r' m' : Nat) :
    getRoundMatch rounds' r' m' =
      if r' = r ∧ m' = m then
        (getRoundMatch rounds r m).map
          (fun mt => { mt with players := mt.players.set s v })
      else getRoundMatch rounds r' m' := by
  unfold setRoundSlot at h
  split at h
  · cases h
  · rename_i rd hr
    split at h
    · cases h
    · rename_i mt hm
      split at h
      · rename_i hs
        have hr' : r < rounds.length := by
          by_contra hc
          rw [List.getElem?_eq_none (by omega)] at hr
          cases hr
        have hm' : m < rd.matches'.length := by
          by_contra hc
          rw [List.getElem?_eq_none (by omega)] at hm
          cases hm
        cases h
        by_cases he : r' = r ∧ m' = m
        · obtain ⟨rfl, rfl⟩ := he
          simp only [getRoundMatch, List.getElem?_set, if_pos rfl, if_pos hr',
            hr, hm, if_pos (And.intro rfl rfl)]
          simp [List.getElem?_set, hm', hm]
        · rw [if_neg he]
          by_cases hrr : r' = r
          · subst hrr
            have hmm : m' ≠ m := fun hc => he (And.intro rfl hc)
            simp only [getRoundMatch, List.getElem?_set, if_pos rfl, if_pos hr',
              hr]
            simp [List.getElem?_set_ne (fun hc => hmm hc.symm)]
          · simp only [getRoundMatch,
              List.getElem?_set_ne (fun hc => hrr hc.symm)]
      · cases h

/-- A grand-final slot write leaves the upper and lower sections alone. -/
theorem setGFSlot_frame (b : DEBracket) (s : Nat) (v : DESlot) (b' : DEBracket)
    (h : setGFSlot b s v = some b') : b'.upper = b.upper ∧ b'.lower = b.lower := by
  unfold setGFSlot at h
  split at h
  · cases h
  · split at h
    · cases h
      exact ⟨rfl, rfl⟩
    · cases h

/-- Length preservation for slot writes into a round list. -/
theorem length_setRoundSlot (rounds : List DERound) (r m s : Nat) (v : DESlot)
    (rounds' : List DERound) (h : setRoundSlot rounds r m s v = some rounds') :
    rounds'.length = rounds.length := by
  unfold setRoundSlot at h
  split at h
  · cases h
  · split at h
    · cases h
    · split at h
      · cases h
        exact List.length_set ..
      · cases h

/-- Off-round reads after a slot write into a round list. -/
theorem getElem_setRoundSlot_ne (rounds : List DERound) (r m s : Nat)
    (v : DESlot) (rounds' : List DERound)
    (h : setRoundSlot rounds r m s v = some rounds') (r' : Nat) (hne : r' ≠ r) :
    rounds'[r']? = rounds[r']? := by
  unfold setRoundSlot at h
  split at h
  · cases h
  · split at h
    · cases h
    · split at h
      · cases h
        exact List.getElem?_set_ne (fun hc => hne hc.symm)
      · cases h

/-- An upper-bracket slot write: only the written round of the upper section
changes. -/
theorem setUpperSlot_frame (b : DEBracket) (r m s : Nat) (v : DESlot)
    (b' : DEBracket) (h : setUpperSlot b r m s v = some b') :
    b'.lower = b.lower ∧ b'.grand_final = b.grand_final ∧
    b'.upper.length = b.upper.length ∧
    (∀ r', r' ≠ r → b'.upper[r']? = b.upper[r']?) := by
  unfold setUpperSlot at h
  rcases hu : setRoundSlot b.upper r m s v with _ | u <;> rw [hu] at h
  · cases h
  · cases h
    exact ⟨rfl, rfl, length_setRoundSlot _ _ _ _ _ _ hu,
      fun r' hne => getElem_setRoundSlot_ne _ _ _ _ _ _ hu r' hne⟩

/-- A lower-bracket slot write: only the written round of the lower section
changes. -/
theorem setLowerSlot_frame (b : DEBracket) (r m s : Nat) (v : DESlot)
    (b' : DEBracket) (h : setLowerSlot b r m s v = some b') :
    b'.upper = b.upper ∧ b'.grand_final = b.grand_final ∧
    b'.lower.length = b.lower.length ∧
    (∀ r', r' ≠ r → b'.lower[r']? = b.lower[r']?) := by
  unfold setLowerSlot at h
  rcases hu : setRoundSlot b.lower r m s v with _ | u <;> rw [hu] at h
  · cases h
  · cases h
    exact ⟨rfl, rfl, length_setRoundSlot _ _ _ _ _ _ hu,
      fun r' hne => getElem_setRoundSlot_ne _ _ _ _ _ _ hu r' hne⟩

/-- Any outcome of the upper winner-routing phase leaves the lower section
untouched and changes at most upper round `ri + 1`. -/
theorem advanceUpperWinners_frame (b : DEBracket) (w : List DESlot) (ri mi : Nat) :
    (resultState (advanceUpperWinners b w ri mi)).lower = b.lower ∧
    (resultState (advanceUpperWinners b w ri mi)).upper.length = b.upper.length ∧
    (∀ r', r' ≠ ri + 1 →
      (resultState (advanceUpperWinners b w ri mi)).upper[r']? = b.upper[r']?) := by
  unfold advanceUpperWinners
  by_cases hub : b.upper.length ≤ ri + 1
  · simp only [if_pos hub]
    rcases hw0 : w[0]? with _ | w0
    · simp [orErr, resultState, Bind.bind, Except.bind]
    · simp only [orErr, Bind.bind, Except.bind]
      rcases hA : setGFSlot b 0 w0 with _ | bA
      · simp [resultState]
      · obtain ⟨hAu, hAl⟩ := setGFSlot_frame _ _ _ _ hA
        rcases hw1 : w[1]? with _ | w1
        · simp [orErr, resultState, hAu, hAl, Bind.bind, Except.bind]
        · simp only [orErr, Bind.bind, Except.bind]
          rcases hB : setGFSlot bA 1 w1 with _ | bB
          · simp [resultState, hAu, hAl]
          · obtain ⟨hBu, hBl⟩ := setGFSlot_frame _ _ _ _ hB
            simp [resultState, hAu, hAl, hBu, hBl]
  · simp only [if_neg hub]
    rcases hg : getRoundMatch b.upper (ri + 1) (mi / 2) with _ | mt
    · simp [orErr, hg, resultState, Bind.bind, Except.bind]
    · simp only [orErr, hg, Bind.bind, Except.bind]
      rcases hw0 : w[0]? with _ | w0
      · simp [resultState]
      · rcases hA : setUpperSlot b (ri + 1) (mi / 2) (mi % 2 * 2) w0 with _ | bA <;>
          try simp only [hA]
        · simp [resultState]
        · obtain ⟨hAl, hAg, hAlen, hAr⟩ := setUpperSlot_frame _ _ _ _ _ _ hA
          rcases hw1 : w[1]? with _ | w1 <;> try simp only [hw1]
          · simp only [resultState]
            exact ⟨hAl, hAlen, hAr⟩
          · rcases hB : setUpperSlot bA (ri + 1) (mi / 2) (mi % 2 * 2 + 1) w1
              with _ | bB <;> try simp only [hB]
            · simp only [resultState]
              exact ⟨hAl, hAlen, hAr⟩
            · obtain ⟨hBl, hBg, hBlen, hBr⟩ := setUpperSlot_frame _ _ _ _ _ _ hB
              simp only [resultState]
              exact ⟨hBl.trans hAl, hBlen.trans hAlen,
                fun r' hne => (hBr r' hne).trans (hAr r' hne)⟩

/-- Any outcome of the upper loser-routing phase leaves the upper section and
grand final untouched and changes at most the computed lower round. -/
theorem advanceUpperLosers_frame (b : DEBracket) (l : List DESlot) (ri mi : Nat) :
    (resultState (advanceUpperLosers b l ri mi)).upper = b.upper ∧
    (resultState (advanceUpperLosers b l ri mi)).grand_final = b.grand_final ∧
    (resultState (advanceUpperLosers b l ri mi)).lower.length = b.lower.length ∧
    (∀ r', r' ≠ (if ri = 0 then 0 else (ri - 1) * 2 + 1) →
      (resultState (advanceUpperLosers b l ri mi)).lower[r']? = b.lower[r']?) := by
  unfold advanceUpperLosers
  by_cases hL : (if ri = 0 then 0 else (ri - 1) * 2 + 1) < b.lower.length
  · simp only [if_pos hL]
    rcases hg : getRoundMatch b.lower (if ri = 0 then 0 else (ri - 1) * 2 + 1)
        (mi / 2) with _ | mt
    · simp [orErr, hg, resultState, Bind.bind, Except.bind]
    · simp only [orErr, hg, Bind.bind, Except.bind]
      rcases hl0 : l[0]? with _ | l0
      · simp [resultState]
      · rcases hA : setLowerSlot b (if ri = 0 then 0 else (ri - 1) * 2 + 1)
            (mi / 2) (mi % 2 * 2) l0 with _ | bA <;> try simp only [hA]
        · simp [resultState]
        · obtain ⟨hAu, hAg, hAlen, hAr⟩ := setLowerSlot_frame _ _ _ _ _ _ hA
          rcases hl1 : l[1]? with _ | l1 <;> try simp only [hl1]
          · simp only [resultState]
            exact ⟨hAu, hAg, hAlen, hAr⟩
          · rcases hB : setLowerSlot bA (if ri = 0 then 0 else (ri - 1) * 2 + 1)
                (mi / 2) (mi % 2 * 2 + 1) l1 with _ | bB <;> try simp only [hB]
            · simp only [resultState]
              exact ⟨hAu, hAg, hAlen, hAr⟩
            · obtain ⟨hBu, hBg, hBlen, hBr⟩ := setLowerSlot_frame _ _ _ _ _ _ hB
              simp only [resultState]
              exact ⟨hBu.trans hAu, hBg.trans hAg, hBlen.trans hAlen,
                fun r' hne => (hBr r' hne).trans (hAr r' hne)⟩
  · simp only [if_neg hL]
    exact ⟨rfl, rfl, rfl, fun _ _ => rfl⟩

/-- Any outcome of the lower winner-routing phase leaves the upper section
untouched and changes at most lower round `ri + 1`. -/
theorem advanceLowerWinners_frame (b : DEBracket) (w : List DESlot) (ri mi : Nat) :
    (resultState (advanceLowerWinners b w ri mi)).upper = b.upper ∧
    (resultState (advanceLowerWinners b w ri mi)).lower.length = b.lower.length ∧
    (∀ r', r' ≠ ri + 1 →
      (resultState (advanceLowerWinners b w ri mi)).lower[r']? = b.lower[r']?) := by
  unfold advanceLowerWinners
  by_cases hub : b.lower.length ≤ ri + 1
  · simp only [if_pos hub]
    rcases hw0 : w[0]? with _ | w0
    · simp [orErr, resultState, Bind.bind, Except.bind]
    · simp only [orErr, Bind.bind, Except.bind]
      rcases hA : setGFSlot b 2 w0 with _ | bA
      · simp [resultState]
      · obtain ⟨hAu, hAl⟩ := setGFSlot_frame _ _ _ _ hA
        rcases hw1 : w[1]? with _ | w1
        · simp [orErr, resultState, hAu, hAl, Bind.bind, Except.bind]
        · simp only [orErr, Bind.bind, Except.bind]
          rcases hB : setGFSlot bA 3 w1 with _ | bB
          · simp [resultState, hAu, hAl]
          · obtain ⟨hBu, hBl⟩ := setGFSlot_frame _ _ _ _ hB
            simp [resultState, hAu, hAl, hBu, hBl]
  · simp only [if_neg hub]
    by_cases hcnt : mi / 2 < ((b.lower.getD (ri + 1) ⟨"", []⟩).matches').length
    · simp only [if_pos hcnt]
      rcases hg : getRoundMatch b.lower (ri + 1) (mi / 2) with _ | mt
      · simp [orErr, hg, resultState, Bind.bind, Except.bind]
      · simp only [orErr, hg, Bind.bind, Except.bind]
        rcases hw0 : w[0]? with _ | w0
        · simp [resultState]
        · rcases hA : setLowerSlot b (ri + 1) (mi / 2) (mi % 2 * 2) w0
              with _ | bA <;> try simp only [hA]
          · simp [resultState]
          · obtain ⟨hAu, hAg, hAlen, hAr⟩ := setLowerSlot_frame _ _ _ _ _ _ hA
            rcases hw1 : w[1]? with _ | w1 <;> try simp only [hw1]
            · simp only [resultState]
              exact ⟨hAu, hAlen, hAr⟩
            · rcases hB : setLowerSlot bA (ri + 1) (mi / 2) (mi % 2 * 2 + 1) w1
                  with _ | bB <;> try simp only [hB]
              · simp only [resultState]
                exact ⟨hAu, hAlen, hAr⟩
              · obtain ⟨hBu, hBg, hBlen, hBr⟩ := setLowerSlot_frame _ _ _ _ _ _ hB
                simp only [resultState]
                exact ⟨hBu.trans hAu, hBlen.trans hAlen,
                  fun r' hne => (hBr r' hne).trans (hAr r' hne)⟩
    · simp only [if_neg hcnt]
      exact ⟨rfl, rfl, fun _ _ => rfl⟩

/-- Writing a match back at a valid position makes it the match read there. -/
theorem getRoundMatch_setMatchIn (rounds : List DERound) (r m : Nat)
    (mt mt' : DEMatch) (hmt : getRoundMatch rounds r m = some mt) :
    getRoundMatch (setMatchIn rounds r m mt') r m = some mt' := by
  unfold getRoundMatch at hmt
  rcases hr : rounds[r]? with _ | rd
  · rw [hr] at hmt; cases hmt
  · rw [hr] at hmt
    simp only [Option.bind] at hmt
    have hr' : r < rounds.length := by
      by_contra hc
      rw [List.getElem?_eq_none (by omega)] at hr
      cases hr
    have hm' : m < rd.matches'.length := by
      by_contra hc
      rw [List.getElem?_eq_none (by omega)] at hmt
      cases hmt
    unfold setMatchIn
    rw [hr]
    unfold getRoundMatch
    rw [List.getElem?_set, if_pos rfl, if_pos hr']
    simp [List.getElem?_set, hm']

/-- Routing an upper match never changes that match itself. -/
theorem advance_source_upper (b : DEBracket) (w l : List DESlot) (ri mi : Nat) :
    getRoundMatch (resultState (advance_players b w l "upper" ri mi)).upper ri mi
      = getRoundMatch b.upper ri mi := by
  unfold advance_players
  rcases hgf : b.grand_final.matches'[0]? with _ | gfm <;> try simp only [hgf]
  · simp [orErr, resultState, Bind.bind, Except.bind]
  · simp only [orErr, Bind.bind, Except.bind, beq_self_eq_true, if_true]
    rcases hW : advanceUpperWinners b w ri mi with X | X <;> try simp only [hW]
    · have hfr := (advanceUpperWinners_frame b w ri mi).2.2 ri (by omega)
      rw [hW] at hfr
      simp only [resultState] at hfr ⊢
      unfold getRoundMatch
      rw [hfr]
    · have hfr := (advanceUpperWinners_frame b w ri mi).2.2 ri (by omega)
      rw [hW] at hfr
      simp only [resultState] at hfr
      have hfr2 := (advanceUpperLosers_frame X l ri mi).1
      unfold getRoundMatch
      rw [hfr2, hfr]

/-- Routing a lower match never changes that match itself. -/
theorem advance_source_lower (b : DEBracket) (w l : List DESlot) (ri mi : Nat) :
    getRoundMatch (resultState (advance_players b w l "lower" ri mi)).lower ri mi
      = getRoundMatch b.lower ri mi := by
  unfold advance_players
  rcases hgf : b.grand_final.matches'[0]? with _ | gfm <;> try simp only [hgf]
  · simp [orErr, resultState, Bind.bind, Except.bind]
  · simp only [orErr, Bind.bind, Except.bind]
    have h1 : (("lower" : String) == "upper") = false := rfl
    have h2 : (("lower" : String) == "lower") = true := rfl
    rw [h1, h2]
    simp only [Bool.false_eq_true, if_false, if_true]
    have hfr := (advanceLowerWinners_frame b w ri mi).2.2 ri (by omega)
    unfold getRoundMatch
    rw [hfr]

/-- Reading the source match back out of the routed-and-wrapped resolver
result (upper case). -/
theorem deMatchAt_route_upper (b2 : DEBracket) (bty : String) (cfg : Config)
    (w l : List DESlot) (ri mi : Nat) :
    deMatchAt (resultState (match advance_players b2 w l "upper" ri mi with
      | .ok b3 => Except.ok (⟨bty, some (.de b3), cfg⟩ : Tournament)
      | .error b3 => Except.error (⟨bty, some (.de b3), cfg⟩ : Tournament)))
      "upper" ri mi = getRoundMatch b2.upper ri mi := by
  rcases hA : advance_players b2 w l "upper" ri mi with b3 | b3 <;>
    have hsrc := advance_source_upper b2 w l ri mi <;>
    rw [hA] at hsrc <;> simp only [resultState] at hsrc <;>
    simp only [hA, resultState] <;>
    unfold deMatchAt <;>
    simpa using hsrc

/-- Reading the source match back out of the routed-and-wrapped resolver
result (lower case). -/
theorem deMatchAt_route_lower (b2 : DEBracket) (bty : String) (cfg : Config)
    (w l : List DESlot) (ri mi : Nat) :
    deMatchAt (resultState (match advance_players b2 w l "lower" ri mi with
      | .ok b3 => Except.ok (⟨bty, some (.de b3), cfg⟩ : Tournament)
      | .error b3 => Except.error (⟨bty, some (.de b3), cfg⟩ : Tournament)))
      "lower" ri mi = getRoundMatch b2.lower ri mi := by
  rcases hA : advance_players b2 w l "lower" ri mi with b3 | b3 <;>
    have hsrc := advance_source_lower b2 w l ri mi <;>
    rw [hA] at hsrc <;> simp only [resultState] at hsrc <;>
    simp only [hA, resultState] <;>
    unfold deMatchAt <;>
    simpa using hsrc

/-- The resolver's effect on the addressed match: scores applied, winners and
completion set by the qualification rule (threshold `points_for_finals` for
the grand final, `points_to_advance` otherwise), with routing never touching
the addressed match. -/
theorem update_match_de_spec (b : DEBracket) (cfg : Config)
    (bty bt mid : String) (ri mi : Nat) (scores : List Int) (mt : DEMatch)
    (hbt : bt = "upper" ∨ bt = "lower" ∨ bt = "grand_final")
    (hmt : deMatchAt ⟨bty, some (.de b), cfg⟩ bt ri mi = some mt) :
    deMatchAt (resultState (update_match ⟨bty, some (.de b), cfg⟩ bt mid ri mi
        scores)) bt ri mi =
      some { mt with
        players := applyDEScores scores mt.players
        winners :=
          if 2 ≤ (qualifiedOf
              (if bt = "grand_final" then cfg.points_for_finals
               else cfg.points_to_advance)
              (applyDEScores scores mt.players)).length then
            (qualifiedOf
              (if bt = "grand_final" then cfg.points_for_finals
               else cfg.points_to_advance)
              (applyDEScores scores mt.players)).take 2
          else []
        is_complete :=
          decide (2 ≤ (qualifiedOf
            (if bt = "grand_final" then cfg.points_for_finals
             else cfg.points_to_advance)
            (applyDEScores scores mt.players)).length) } := by
  rcases hbt with rfl | rfl | rfl
  · -- upper
    have hmt' : getRoundMatch b.upper ri mi = some mt := by
      unfold deMatchAt at hmt
      simpa using hmt
    unfold update_match
    rw [show (("upper" : String) == "swiss") = false from rfl]
    simp only [Bool.false_eq_true, if_false]
    rw [show (("upper" : String) == "grand_final") = false from rfl,
      show (("upper" : String) == "upper") = true from rfl]
    simp only [Bool.false_eq_true, if_false, if_true]
    rw [hmt']
    unfold resolveDEMatch
    simp only []
    by_cases hq : 2 ≤ ((pySort deScoreDescLe ((applyDEScores scores
        mt.players).filter (fun p => isRealId p.trackmania_id))).filter
        (fun p => decide (cfg.points_to_advance ≤ p.score))).length
    · rw [if_pos hq, if_pos (show "upper" ≠ "grand_final" by decide)]
      refine Eq.trans (deMatchAt_route_upper _ _ _ _ _ ri mi) ?_
      refine Eq.trans (getRoundMatch_setMatchIn b.upper ri mi mt _ hmt') ?_
      simp [hq, qualifiedOf]
    · rw [if_neg hq]
      simp only [resultState]
      unfold deMatchAt
      simp only [String.reduceEq, reduceIte]
      refine Eq.trans (getRoundMatch_setMatchIn b.upper ri mi mt _ hmt') ?_
      simp [hq, qualifiedOf]
  · -- lower
    have hmt' : getRoundMatch b.lower ri mi = some mt := by
      unfold deMatchAt at hmt
      simpa using hmt
    unfold update_match
    rw [show (("lower" : String) == "swiss") = false from rfl]
    simp only [Bool.false_eq_true, if_false]
    rw [show (("lower" : String) == "grand_final") = false from rfl,
      show (("lower" : String) == "upper") = false from rfl,
      show (("lower" : String) == "lower") = true from rfl]
    simp only [Bool.false_eq_true, if_false, if_true]
    rw [hmt']
    unfold resolveDEMatch
    simp only []
    by_cases hq : 2 ≤ ((pySort deScoreDescLe ((applyDEScores scores
        mt.players).filter (fun p => isRealId p.trackmania_id))).filter
        (fun p => decide (cfg.points_to_advance ≤ p.score))).length
    · rw [if_pos hq, if_pos (show "lower" ≠ "grand_final" by decide)]
      refine Eq.trans (deMatchAt_route_lower _ _ _ _ _ ri mi) ?_
      refine Eq.trans (getRoundMatch_setMatchIn b.lower ri mi mt _ hmt') ?_
      simp [hq, qualifiedOf]
    · rw [if_neg hq]
      simp only [resultState]
      unfold deMatchAt
      simp only [String.reduceEq, reduceIte]
      refine Eq.trans (getRoundMatch_setMatchIn b.lower ri mi mt _ hmt') ?_
      simp [hq, qualifiedOf]
  · -- grand final
    have hmt' : b.grand_final.matches'[mi]? = some mt := by
      unfold deMatchAt at hmt
      simpa using hmt
    have hmi : mi < b.grand_final.matches'.length := by
      by_contra hc
      rw [List.getElem?_eq_none (by omega)] at hmt'
      cases hmt'
    unfold update_match
    rw [show (("grand_final" : String) == "swiss") = false from rfl]
    simp only [Bool.false_eq_true, if_false]
    rw [show (("grand_final" : String) == "grand_final") = true from rfl]
    simp only [if_true]
    rw [hmt']
    unfold resolveDEMatch
    simp only []
    by_cases hq : 2 ≤ ((pySort deScoreDescLe ((applyDEScores scores
        mt.players).filter (fun p => isRealId p.trackmania_id))).filter
        (fun p => decide (cfg.points_for_finals ≤ p.score))).length
    · rw [if_pos hq, if_neg (show ¬ "grand_final" ≠ "grand_final" by decide)]
      simp only [resultState]
      unfold deMatchAt
      simp only [String.reduceEq, reduceIte]
      rw [List.getElem?_set, if_pos rfl, if_pos hmi]
      simp [hq, qualifiedOf]
    · rw [if_neg hq]
      simp only [resultState]
      unfold deMatchAt
      simp only [String.reduceEq, reduceIte]
      rw [List.getElem?_set, if_pos rfl, if_pos hmi]
      simp [hq, qualifiedOf]

/-- Membership in the qualified list of a resolved DE match. -/
theorem mem_qualifiedOf (thr : Int) (ps : List DESlot) (p : DESlot) :
    p ∈ qualifiedOf thr ps ↔
      p ∈ ps ∧ isRealId p.trackmania_id = true ∧ thr ≤ p.score := by
  unfold qualifiedOf pySort
  simp only [List.mem_filter, List.mem_insertionSort, decide_eq_true_eq]
  tauto

/-- The qualification list is sorted score-descending. -/
theorem qualifiedOf_sorted (thr : Int) (ps : List DESlot) :
    (qualifiedOf thr ps).Pairwise (fun a b => b.score ≤ a.score) := by
  letI : IsTotal DESlot (fun a b => deScoreDescLe a b = true) :=
    ⟨fun a b => by simp only [deScoreDescLe, decide_eq_true_eq]; omega⟩
  letI : IsTrans DESlot (fun a b => deScoreDescLe a b = true) :=
    ⟨fun a b c hab hbc => by
      simp only [deScoreDescLe, decide_eq_true_eq] at hab hbc ⊢
      omega⟩
  have hs : (pySort deScoreDescLe
      (ps.filter (fun p => isRealId p.trackmania_id))).Pairwise
      (fun a b => deScoreDescLe a b = true) :=
    List.sorted_insertionSort _ _
  have hs2 := hs.filter (fun p => decide (thr ≤ p.score))
  refine hs2.imp ?_
  intro a b hab
  simpa [deScoreDescLe] using hab

/-- C6: resolving a double-elimination or grand-final match applies the
posted scores and the qualification rule (threshold `points_for_finals` for
the grand final, `points_to_advance` otherwise): with at least 2 qualifying
real entrants the top 2 by score descending become the winners and the match
completes; with fewer than 2 (including exactly 1) the winners are cleared
and the match is incomplete; with exactly 2 qualifiers those 2 are the
winners — characterised by score and threshold alone, regardless of the
scores of any other entrant in the match. -/
theorem C6_de_qualification (b : DEBracket) (cfg : Config) (bty bt mid : String)
    (ri mi : Nat) (scores : List Int) (mt : DEMatch) (thr : Int)
    (hbt : bt = "upper" ∨ bt = "lower" ∨ bt = "grand_final")
    (hthr : thr = if bt = "grand_final" then cfg.points_for_finals
      else cfg.points_to_advance)
    (hmt : deMatchAt ⟨bty, some (.de b), cfg⟩ bt ri mi = some mt) :
    (2 ≤ (qualifiedOf thr (applyDEScores scores mt.players)).length →
      deMatchAt (resultState (update_match ⟨bty, some (.de b), cfg⟩ bt mid ri mi
        scores)) bt ri mi = some { mt with
          players := applyDEScores scores mt.players
          winners := (qualifiedOf thr (applyDEScores scores mt.players)).take 2
          is_complete := true } ∧
      (∀ w ∈ (qualifiedOf thr (applyDEScores scores mt.players)).take 2,
        thr ≤ w.score ∧ isRealId w.trackmania_id = true ∧
          w ∈ applyDEScores scores mt.players) ∧
      (∀ p ∈ (qualifiedOf thr (applyDEScores scores mt.players)).drop 2,
        ∀ w ∈ (qualifiedOf thr (applyDEScores scores mt.players)).take 2,
          p.score ≤ w.score)) ∧
    ((qualifiedOf thr (applyDEScores scores mt.players)).length < 2 →
      deMatchAt (resultState (update_match ⟨bty, some (.de b), cfg⟩ bt mid ri mi
        scores)) bt ri mi = some { mt with
          players := applyDEScores scores mt.players
          winners := []
          is_complete := false }) ∧
    ((qualifiedOf thr (applyDEScores scores mt.players)).length = 2 →
      deMatchAt (resultState (update_match ⟨bty, some (.de b), cfg⟩ bt mid ri mi
        scores)) bt ri mi = some { mt with
          players := applyDEScores scores mt.players
          winners := qualifiedOf thr (applyDEScores scores mt.players)
          is_complete := true } ∧
      (∀ p, p ∈ qualifiedOf thr (applyDEScores scores mt.players) ↔
        (p ∈ applyDEScores scores mt.players ∧
          isRealId p.trackmania_id = true ∧ thr ≤ p.score))) := by
  subst hthr
  have hspec := update_match_de_spec b cfg bty bt mid ri mi scores mt hbt hmt
  refine ⟨fun hq => ⟨?_, ?_, ?_⟩, fun hq => ?_, fun hq => ⟨?_, ?_⟩⟩
  · rw [hspec]
    simp [hq, decide_eq_true_eq]
  · intro w hw
    have hw' := List.mem_of_mem_take hw
    rw [mem_qualifiedOf] at hw'
    exact ⟨hw'.2.2, hw'.2.1, hw'.1⟩
  · intro p hp w hw
    have hsorted := qualifiedOf_sorted
      (if bt = "grand_final" then cfg.points_for_finals
       else cfg.points_to_advance) (applyDEScores scores mt.players)
    rw [← List.take_append_drop 2 (qualifiedOf _ _), List.pairwise_append]
      at hsorted
    exact hsorted.2.2 w hw p hp
  · rw [hspec]
    have hq' : ¬ 2 ≤ (qualifiedOf
        (if bt = "grand_final" then cfg.points_for_finals
         else cfg.points_to_advance)
        (applyDEScores scores mt.players)).length := by omega
    simp [hq', decide_eq_true_eq]
  · rw [hspec]
    have hq1 : 2 ≤ (qualifiedOf
        (if bt = "grand_final" then cfg.points_for_finals
         else cfg.points_to_advance)
        (applyDEScores scores mt.players)).length := by omega
    have hq2 : (qualifiedOf
        (if bt = "grand_final" then cfg.points_for_finals
         else cfg.points_to_advance)
        (applyDEScores scores mt.players)).take 2 = qualifiedOf _ _ :=
      List.take_of_length_le (by omega)
    simp [hq1, hq2, decide_eq_true_eq]
  · intro p
    exact mem_qualifiedOf _ _ p

/-- C6, witness: the qualification theorem applied to upper round 1 match 1
of the fresh 8-player bracket with scores `[70,10,80,5]` (threshold 70,
exactly two qualifiers). -/
theorem C6_witness :
    (qualifiedOf 70 (applyDEScores [70, 10, 80, 5]
      ((deMatchAt ⟨"double_elimination", some (.de sampleB8), sampleConfig⟩
        "upper" 0 0).getD ⟨"", [], [], false⟩).players)).length = 2 ∧
    deMatchAt (resultState (update_match
        ⟨"double_elimination", some (.de sampleB8), sampleConfig⟩
        "upper" "" 0 0 [70, 10, 80, 5])) "upper" 0 0 =
      some { (deMatchAt ⟨"double_elimination", some (.de sampleB8),
            sampleConfig⟩ "upper" 0 0).getD ⟨"", [], [], false⟩ with
        players := applyDEScores [70, 10, 80, 5]
          ((deMatchAt ⟨"double_elimination", some (.de sampleB8),
            sampleConfig⟩ "upper" 0 0).getD ⟨"", [], [], false⟩).players
        winners := qualifiedOf 70 (applyDEScores [70, 10, 80, 5]
          ((deMatchAt ⟨"double_elimination", some (.de sampleB8),
            sampleConfig⟩ "upper" 0 0).getD ⟨"", [], [], false⟩).players)
        is_complete := true } :=
  ⟨by decide,
   ((C6_de_qualification sampleB8 sampleConfig "double_elimination" "upper" ""
      0 0 [70, 10, 80, 5]
      ((deMatchAt ⟨"double_elimination", some (.de sampleB8), sampleConfig⟩
        "upper" 0 0).getD ⟨"", [], [], false⟩) 70
      (Or.inl rfl) (by decide) (by decide)).2.2 (by decide)).1⟩

/-- Re-applying the same positional score list is a no-op on an already
score-patched slot list. -/
theorem applyDEScores_idem (scores : List Int) (ps : List DESlot) :
    applyDEScores scores (applyDEScores scores ps) = applyDEScores scores ps := by
  unfold applyDEScores
  apply List.ext_getElem
  · simp
  · intro i h1 h2
    simp only [List.getElem_map, List.getElem_enum]
    split
    · rename_i h
      simp [h]
    · rfl

/-- Every branch of `resolveDEMatch` returns (ok or error) a tournament that
differs from the input only in holding some double-elimination bracket. -/
theorem resolveDEMatch_shape (t : Tournament) (bt : String) (ri mi : Nat)
    (scores : List Int) (mt : DEMatch) (thr : Int)
    (setM : DEMatch → DEBracket) :
    ∃ b', resultState (resolveDEMatch t bt ri mi scores mt thr setM) =
      { t with bracket := some (.de b') } := by
  dsimp only [resolveDEMatch]
  split
  · split
    · split <;> exact ⟨_, rfl⟩
    · exact ⟨_, rfl⟩
  · exact ⟨_, rfl⟩

/-- A double-elimination `update_match` call leaves the state in the shape
`⟨bty, some (.de b'), cfg⟩` for some bracket `b'`. -/
theorem update_match_de_shape (b : DEBracket) (cfg : Config)
    (bty bt mid : String) (ri mi : Nat) (scores : List Int)
    (hbt : bt = "upper" ∨ bt = "lower" ∨ bt = "grand_final") :
    ∃ b', resultState (update_match ⟨bty, some (.de b), cfg⟩ bt mid ri mi
      scores) = ⟨bty, some (.de b'), cfg⟩ := by
  rcases hbt with h | h | h <;> subst h <;> unfold update_match <;>
    simp only [String.reduceBEq, String.reduceEq, Bool.false_eq_true, if_false,
      if_true, beq_self_eq_true, if_pos, ite_false, ite_true] <;>
    (first
      | (split
         · exact ⟨b, rfl⟩
         · exact resolveDEMatch_shape _ _ _ _ _ _ _ _))

/-- C9, amended: for double-elimination and grand-final matches,
`resolve_match` IS idempotent under re-submission of the same scores —
the second identical call leaves the addressed match (players, winners and
completion flag) exactly as the first call left it.  (The Swiss branch is
the part of the claim that fails; see the counterexample.) -/
theorem C9_de_resubmission_idempotent (b : DEBracket) (cfg : Config)
    (bty bt mid : String) (ri mi : Nat) (scores : List Int) (mt : DEMatch)
    (hbt : bt = "upper" ∨ bt = "lower" ∨ bt = "grand_final")
    (hmt : deMatchAt ⟨bty, some (.de b), cfg⟩ bt ri mi = some mt) :
    deMatchAt (resultState (update_match
        (resultState (update_match ⟨bty, some (.de b), cfg⟩ bt mid ri mi
          scores)) bt mid ri mi scores)) bt ri mi =
      deMatchAt (resultState (update_match ⟨bty, some (.de b), cfg⟩ bt mid ri
        mi scores)) bt ri mi := by
  obtain ⟨b1, hb1⟩ := update_match_de_shape b cfg bty bt mid ri mi scores hbt
  have h1 := update_match_de_spec b cfg bty bt mid ri mi scores mt hbt hmt
  rw [hb1] at h1 ⊢
  have h2 := update_match_de_spec b1 cfg bty bt mid ri mi scores _ hbt h1
  rw [h2, h1]
  simp only [applyDEScores_idem]

/-- C9, witness: re-submitting scores `[70,10,80,5]` to upper round 1
match 1 of the fresh 8-player bracket changes nothing the second time. -/
theorem C9_witness :
    deMatchAt (resultState (update_match
        (resultState (update_match ⟨"double_elimination", some (.de sampleB8),
          sampleConfig⟩ "upper" "" 0 0 [70, 10, 80, 5]))
        "upper" "" 0 0 [70, 10, 80, 5])) "upper" 0 0 =
      deMatchAt (resultState (update_match ⟨"double_elimination",
        some (.de sampleB8), sampleConfig⟩ "upper" "" 0 0 [70, 10, 80, 5]))
        "upper" 0 0 :=
  C9_de_resubmission_idempotent sampleB8 sampleConfig "double_elimination"
    "upper" "" 0 0 [70, 10, 80, 5]
    ((deMatchAt ⟨"double_elimination", some (.de sampleB8), sampleConfig⟩
      "upper" 0 0).getD ⟨"", [], [], false⟩) (Or.inl rfl) (by decide)

/-- A slot write into a round list succeeds exactly when the addressed match
exists and the slot index is within its player list. -/
theorem setRoundSlot_succeeds (rounds : List DERound) (r m s : Nat)
    (v : DESlot) (mt : DEMatch) (hm : getRoundMatch rounds r m = some mt)
    (hs : s < mt.players.length) :
    ∃ rounds', setRoundSlot rounds r m s v = some rounds' := by
  unfold getRoundMatch at hm
  rcases hr : rounds[r]? with _ | rd
  · rw [hr] at hm; cases hm
  · rw [hr] at hm
    simp only [Option.bind] at hm
    unfold setRoundSlot
    rw [hr]
    dsimp only
    rw [hm]
    dsimp only
    rw [if_pos hs]
    exact ⟨_, rfl⟩

/-- A grand-final slot write succeeds exactly when the final match exists and
the slot index is within its player list. -/
theorem setGFSlot_succeeds (b : DEBracket) (s : Nat) (v : DESlot)
    (gfm : DEMatch) (hg : b.grand_final.matches'[0]? = some gfm)
    (hs : s < gfm.players.length) :
    ∃ b', setGFSlot b s v = some b' := by
  unfold setGFSlot
  rw [hg]
  dsimp only
  rw [if_pos hs]
  exact ⟨_, rfl⟩

/-- Reading the final match back after a grand-final slot write. -/
theorem setGFSlot_self (b : DEBracket) (s : Nat) (v : DESlot) (b' : DEBracket)
    (h : setGFSlot b s v = some b') :
    b'.grand_final.matches'[0]? = (b.grand_final.matches'[0]?).map
      (fun mt => { mt with players := mt.players.set s v }) := by
  unfold setGFSlot at h
  split at h
  · cases h
  · rename_i mt hmt
    split at h
    · cases h
      have h0 : (0 : Nat) < b.grand_final.matches'.length := by
        by_contra hc
        rw [List.getElem?_eq_none (by omega)] at hmt
        cases hmt
      simp only [hmt, Option.map]
      simp [List.getElem?_set, h0]
    · cases h

/-- The upper winner phase with an existing next upper round: both winner
slots are written at the claimed destination and the phase succeeds. -/
theorem advanceUpperWinners_next_spec (b : DEBracket) (ws : List DESlot)
    (w0 w1 : DESlot) (ri mi : Nat) (dmt : DEMatch)
    (hnr : ¬ b.upper.length ≤ ri + 1)
    (hw0 : ws[0]? = some w0) (hw1 : ws[1]? = some w1)
    (hdm : getRoundMatch b.upper (ri + 1) (mi / 2) = some dmt)
    (hsl : mi % 2 * 2 + 1 < dmt.players.length) :
    ∃ b1, advanceUpperWinners b ws ri mi = .ok b1 ∧
      b1.lower = b.lower ∧ b1.grand_final = b.grand_final ∧
      getRoundMatch b1.upper (ri + 1) (mi / 2) = some { dmt with
        players := (dmt.players.set (mi % 2 * 2) w0).set (mi % 2 * 2 + 1) w1 } := by
  obtain ⟨uA, hA⟩ := setRoundSlot_succeeds b.upper (ri + 1) (mi / 2)
    (mi % 2 * 2) w0 dmt hdm (by omega)
  have hdmA : getRoundMatch uA (ri + 1) (mi / 2) =
      some { dmt with players := dmt.players.set (mi % 2 * 2) w0 } := by
    rw [getRoundMatch_setRoundSlot b.upper _ _ _ _ _ hA (ri + 1) (mi / 2),
      if_pos ⟨rfl, rfl⟩, hdm]
    rfl
  obtain ⟨uB, hB⟩ := setRoundSlot_succeeds uA (ri + 1) (mi / 2)
    (mi % 2 * 2 + 1) w1 _ hdmA (by simpa using hsl)
  have hdmB : getRoundMatch uB (ri + 1) (mi / 2) = some { dmt with
      players := (dmt.players.set (mi % 2 * 2) w0).set (mi % 2 * 2 + 1) w1 } := by
    rw [getRoundMatch_setRoundSlot uA _ _ _ _ _ hB (ri + 1) (mi / 2),
      if_pos ⟨rfl, rfl⟩, hdmA]
    rfl
  have hsA : setUpperSlot b (ri + 1) (mi / 2) (mi % 2 * 2) w0 =
      some { b with upper := uA } := by
    unfold setUpperSlot
    rw [hA]
    rfl
  have hsB : setUpperSlot { b with upper := uA } (ri + 1) (mi / 2)
      (mi % 2 * 2 + 1) w1 = some { b with upper := uB } := by
    unfold setUpperSlot
    show (setRoundSlot uA (ri + 1) (mi / 2) (mi % 2 * 2 + 1) w1).map _ = _
    rw [hB]
    rfl
  refine ⟨{ b with upper := uB }, ?_, rfl, rfl, hdmB⟩
  unfold advanceUpperWinners
  rw [if_neg hnr]
  simp only [orErr, Bind.bind, Except.bind, hdm, hw0, hw1, hsA, hsB]

/-- The upper winner phase at the last upper round: winners land in
grand-final slots 0 and 1. -/
theorem advanceUpperWinners_gf_spec (b : DEBracket) (ws : List DESlot)
    (w0 w1 : DESlot) (ri mi : Nat) (gfm : DEMatch)
    (hub : b.upper.length ≤ ri + 1)
    (hw0 : ws[0]? = some w0) (hw1 : ws[1]? = some w1)
    (hgf : b.grand_final.matches'[0]? = some gfm)
    (hsl : 1 < gfm.players.length) :
    ∃ b1, advanceUpperWinners b ws ri mi = .ok b1 ∧
      b1.upper = b.upper ∧ b1.lower = b.lower ∧
      b1.grand_final.matches'[0]? = some { gfm with
        players := (gfm.players.set 0 w0).set 1 w1 } := by
  obtain ⟨bA, hA⟩ := setGFSlot_succeeds b 0 w0 gfm hgf (by omega)
  have hgfA := setGFSlot_self b 0 w0 bA hA
  rw [hgf] at hgfA
  simp only [Option.map] at hgfA
  obtain ⟨hAu, hAl⟩ := setGFSlot_frame b 0 w0 bA hA
  obtain ⟨bB, hB⟩ := setGFSlot_succeeds bA 1 w1 _ hgfA (by simpa using hsl)
  have hgfB := setGFSlot_self bA 1 w1 bB hB
  rw [hgfA] at hgfB
  simp only [Option.map] at hgfB
  obtain ⟨hBu, hBl⟩ := setGFSlot_frame bA 1 w1 bB hB
  refine ⟨bB, ?_, hBu.trans hAu, hBl.trans hAl, hgfB⟩
  unfold advanceUpperWinners
  rw [if_pos hub]
  simp only [orErr, Bind.bind, Except.bind, hw0, hw1, hA, hB]

/-- The upper loser phase with the computed lower round in range: both loser
slots are written at the claimed destination and the phase succeeds. -/
theorem advanceUpperLosers_next_spec (b : DEBracket) (ls : List DESlot)
    (l0 l1 : DESlot) (ri mi : Nat) (dmt : DEMatch)
    (hL : (if ri = 0 then 0 else (ri - 1) * 2 + 1) < b.lower.length)
    (hl0 : ls[0]? = some l0) (hl1 : ls[1]? = some l1)
    (hdm : getRoundMatch b.lower (if ri = 0 then 0 else (ri - 1) * 2 + 1)
      (mi / 2) = some dmt)
    (hsl : mi % 2 * 2 + 1 < dmt.players.length) :
    ∃ b1, advanceUpperLosers b ls ri mi = .ok b1 ∧
      b1.upper = b.upper ∧ b1.grand_final = b.grand_final ∧
      getRoundMatch b1.lower (if ri = 0 then 0 else (ri - 1) * 2 + 1) (mi / 2)
        = some { dmt with
          players := (dmt.players.set (mi % 2 * 2) l0).set (mi % 2 * 2 + 1) l1 } := by
  obtain ⟨uA, hA⟩ := setRoundSlot_succeeds b.lower
    (if ri = 0 then 0 else (ri - 1) * 2 + 1) (mi / 2)
    (mi % 2 * 2) l0 dmt hdm (by omega)
  have hdmA : getRoundMatch uA (if ri = 0 then 0 else (ri - 1) * 2 + 1)
      (mi / 2) = some { dmt with players := dmt.players.set (mi % 2 * 2) l0 } := by
    rw [getRoundMatch_setRoundSlot b.lower _ _ _ _ _ hA _ (mi / 2),
      if_pos ⟨rfl, rfl⟩, hdm]
    rfl
  obtain ⟨uB, hB⟩ := setRoundSlot_succeeds uA
    (if ri = 0 then 0 else (ri - 1) * 2 + 1) (mi / 2)
    (mi % 2 * 2 + 1) l1 _ hdmA (by simpa using hsl)
  have hdmB : getRoundMatch uB (if ri = 0 then 0 else (ri - 1) * 2 + 1)
      (mi / 2) = some { dmt with
        players := (dmt.players.set (mi % 2 * 2) l0).set (mi % 2 * 2 + 1) l1 } := by
    rw [getRoundMatch_setRoundSlot uA _ _ _ _ _ hB _ (mi / 2),
      if_pos ⟨rfl, rfl⟩, hdmA]
    rfl
  have hsA : setLowerSlot b (if ri = 0 then 0 else (ri - 1) * 2 + 1) (mi / 2)
      (mi % 2 * 2) l0 = some { b with lower := uA } := by
    unfold setLowerSlot
    rw [hA]
    rfl
  have hsB : setLowerSlot { b with lower := uA }
      (if ri = 0 then 0 else (ri - 1) * 2 + 1) (mi / 2)
      (mi % 2 * 2 + 1) l1 = some { b with lower := uB } := by
    unfold setLowerSlot
    show (setRoundSlot uA _ _ _ _).map _ = _
    rw [hB]
    rfl
  refine ⟨{ b with lower := uB }, ?_, rfl, rfl, hdmB⟩
  unfold advanceUpperLosers
  simp only [if_pos hL, orErr, Bind.bind, Except.bind, hdm, hl0, hl1, hsA, hsB]

/-- The upper loser phase with the computed lower round out of range: the
losers are dropped silently and the bracket is unchanged. -/
theorem advanceUpperLosers_drop (b : DEBracket) (ls : List DESlot) (ri mi : Nat)
    (hL : ¬ (if ri = 0 then 0 else (ri - 1) * 2 + 1) < b.lower.length) :
    advanceUpperLosers b ls ri mi = .ok b := by
  unfold advanceUpperLosers
  simp only [if_neg hL]
  rfl

/-- The lower winner phase with an existing next lower round: both winner
slots are written at the claimed destination and the phase succeeds. -/
theorem advanceLowerWinners_next_spec (b : DEBracket) (ws : List DESlot)
    (w0 w1 : DESlot) (ri mi : Nat) (dmt : DEMatch)
    (hnr : ¬ b.lower.length ≤ ri + 1)
    (hw0 : ws[0]? = some w0) (hw1 : ws[1]? = some w1)
    (hdm : getRoundMatch b.lower (ri + 1) (mi / 2) = some dmt)
    (hsl : mi % 2 * 2 + 1 < dmt.players.length) :
    ∃ b1, advanceLowerWinners b ws ri mi = .ok b1 ∧
      b1.upper = b.upper ∧ b1.grand_final = b.grand_final ∧
      getRoundMatch b1.lower (ri + 1) (mi / 2) = some { dmt with
        players := (dmt.players.set (mi % 2 * 2) w0).set (mi % 2 * 2 + 1) w1 } := by
  have hguard : mi / 2 < ((b.lower.getD (ri + 1) ⟨"", []⟩).matches').length := by
    unfold getRoundMatch at hdm
    rcases hr : b.lower[ri + 1]? with _ | rd
    · rw [hr] at hdm; cases hdm
    · rw [hr] at hdm
      simp only [Option.bind] at hdm
      have hlt : mi / 2 < rd.matches'.length := by
        by_contra hc
        rw [List.getElem?_eq_none (by omega)] at hdm
        cases hdm
      rw [List.getD_eq_getElem?_getD, hr]
      simpa using hlt
  obtain ⟨uA, hA⟩ := setRoundSlot_succeeds b.lower (ri + 1) (mi / 2)
    (mi % 2 * 2) w0 dmt hdm (by omega)
  have hdmA : getRoundMatch uA (ri + 1) (mi / 2) =
      some { dmt with players := dmt.players.set (mi % 2 * 2) w0 } := by
    rw [getRoundMatch_setRoundSlot b.lower _ _ _ _ _ hA (ri + 1) (mi / 2),
      if_pos ⟨rfl, rfl⟩, hdm]
    rfl
  obtain ⟨uB, hB⟩ := setRoundSlot_succeeds uA (ri + 1) (mi / 2)
    (mi % 2 * 2 + 1) w1 _ hdmA (by simpa using hsl)
  have hdmB : getRoundMatch uB (ri + 1) (mi / 2) = some { dmt with
      players := (dmt.players.set (mi % 2 * 2) w0).set (mi % 2 * 2 + 1) w1 } := by
    rw [getRoundMatch_setRoundSlot uA _ _ _ _ _ hB (ri + 1) (mi / 2),
      if_pos ⟨rfl, rfl⟩, hdmA]
    rfl
  have hsA : setLowerSlot b (ri + 1) (mi / 2) (mi % 2 * 2) w0 =
      some { b with lower := uA } := by
    unfold setLowerSlot
    rw [hA]
    rfl
  have hsB : setLowerSlot { b with lower := uA } (ri + 1) (mi / 2)
      (mi % 2 * 2 + 1) w1 = some { b with lower := uB } := by
    unfold setLowerSlot
    show (setRoundSlot uA (ri + 1) (mi / 2) (mi % 2 * 2 + 1) w1).map _ = _
    rw [hB]
    rfl
  refine ⟨{ b with lower := uB }, ?_, rfl, rfl, hdmB⟩
  unfold advanceLowerWinners
  rw [if_neg hnr]
  simp only [if_pos hguard, orErr, Bind.bind, Except.bind, hdm, hw0, hw1,
    hsA, hsB]

/-- The lower winner phase at the last lower round: winners land in
grand-final slots 2 and 3. -/
theorem advanceLowerWinners_gf_spec (b : DEBracket) (ws : List DESlot)
    (w0 w1 : DESlot) (ri mi : Nat) (gfm : DEMatch)
    (hub : b.lower.length ≤ ri + 1)
    (hw0 : ws[0]? = some w0) (hw1 : ws[1]? = some w1)
    (hgf : b.grand_final.matches'[0]? = some gfm)
    (hsl : 3 < gfm.players.length) :
    ∃ b1, advanceLowerWinners b ws ri mi = .ok b1 ∧
      b1.upper = b.upper ∧ b1.lower = b.lower ∧
      b1.grand_final.matches'[0]? = some { gfm with
        players := (gfm.players.set 2 w0).set 3 w1 } := by
  obtain ⟨bA, hA⟩ := setGFSlot_succeeds b 2 w0 gfm hgf (by omega)
  have hgfA := setGFSlot_self b 2 w0 bA hA
  rw [hgf] at hgfA
  simp only [Option.map] at hgfA
  obtain ⟨hAu, hAl⟩ := setGFSlot_frame b 2 w0 bA hA
  obtain ⟨bB, hB⟩ := setGFSlot_succeeds bA 3 w1 _ hgfA (by simpa using hsl)
  have hgfB := setGFSlot_self bA 3 w1 bB hB
  rw [hgfA] at hgfB
  simp only [Option.map] at hgfB
  obtain ⟨hBu, hBl⟩ := setGFSlot_frame bA 3 w1 bB hB
  refine ⟨bB, ?_, hBu.trans hAu, hBl.trans hAl, hgfB⟩
  unfold advanceLowerWinners
  rw [if_pos hub]
  simp only [orErr, Bind.bind, Except.bind, hw0, hw1, hA, hB]

/-- Reading both slots of a consecutive pair write. -/
theorem getElem_set_pair (ps : List DESlot) (s : Nat) (v0 v1 : DESlot)
    (hs : s + 1 < ps.length) :
    ((ps.set s v0).set (s + 1) v1)[s]? = some v0 ∧
    ((ps.set s v0).set (s + 1) v1)[s + 1]? = some v1 := by
  constructor
  · rw [List.getElem?_set, if_neg (by omega), List.getElem?_set, if_pos rfl,
      if_pos (by omega)]
  · rw [List.getElem?_set, if_pos rfl, if_pos (by simpa using hs)]

/-- C5: the advancement router's destination mapping.  Upper winners go to
upper round `r+1`, match `m/2`, slots `(m%2)*2` and `(m%2)*2+1`, or to
grand-final slots 0–1 when no upper round `r+1` exists; upper losers go to
lower round `L` (`L = 0` if `r = 0`, else `(r-1)*2+1`) at the same
`(m/2, (m%2)*2)` pattern when that round exists and are dropped silently
(state returned unchanged, no error) when it does not; lower winners go to
lower round `r+1` at the same placement, or to grand-final slots 2–3 when no
lower round `r+1` exists; and lower-bracket losers are never routed (the
result does not depend on the loser list at all). -/
theorem C5_router_destinations (b : DEBracket) (ws ls : List DESlot)
    (w0 w1 l0 l1 : DESlot) (ri mi : Nat) (gfm : DEMatch)
    (hw0 : ws[0]? = some w0) (hw1 : ws[1]? = some w1)
    (hl0 : ls[0]? = some l0) (hl1 : ls[1]? = some l1)
    (hgf : b.grand_final.matches'[0]? = some gfm) :
    (∀ dmt, ¬ b.upper.length ≤ ri + 1 →
      getRoundMatch b.upper (ri + 1) (mi / 2) = some dmt →
      mi % 2 * 2 + 1 < dmt.players.length →
      readSlot (resultState (advance_players b ws ls "upper" ri mi)) "upper"
        (ri + 1) (mi / 2) (mi % 2 * 2) = some w0 ∧
      readSlot (resultState (advance_players b ws ls "upper" ri mi)) "upper"
        (ri + 1) (mi / 2) (mi % 2 * 2 + 1) = some w1) ∧
    (b.upper.length ≤ ri + 1 → 1 < gfm.players.length →
      readSlot (resultState (advance_players b ws ls "upper" ri mi))
        "grand_final" 0 0 0 = some w0 ∧
      readSlot (resultState (advance_players b ws ls "upper" ri mi))
        "grand_final" 0 0 1 = some w1) ∧
    (∀ b1 dmt, advanceUpperWinners b ws ri mi = .ok b1 →
      (if ri = 0 then 0 else (ri - 1) * 2 + 1) < b.lower.length →
      getRoundMatch b.lower (if ri = 0 then 0 else (ri - 1) * 2 + 1) (mi / 2)
        = some dmt →
      mi % 2 * 2 + 1 < dmt.players.length →
      readSlot (resultState (advance_players b ws ls "upper" ri mi)) "lower"
        (if ri = 0 then 0 else (ri - 1) * 2 + 1) (mi / 2) (mi % 2 * 2)
        = some l0 ∧
      readSlot (resultState (advance_players b ws ls "upper" ri mi)) "lower"
        (if ri = 0 then 0 else (ri - 1) * 2 + 1) (mi / 2) (mi % 2 * 2 + 1)
        = some l1) ∧
    (∀ b1, advanceUpperWinners b ws ri mi = .ok b1 →
      ¬ (if ri = 0 then 0 else (ri - 1) * 2 + 1) < b.lower.length →
      advance_players b ws ls "upper" ri mi = .ok b1) ∧
    (∀ dmt, ¬ b.lower.length ≤ ri + 1 →
      getRoundMatch b.lower (ri + 1) (mi / 2) = some dmt →
      mi % 2 * 2 + 1 < dmt.players.length →
      isOkE (advance_players b ws ls "lower" ri mi) = true ∧
      readSlot (resultState (advance_players b ws ls "lower" ri mi)) "lower"
        (ri + 1) (mi / 2) (mi % 2 * 2) = some w0 ∧
      readSlot (resultState (advance_players b ws ls "lower" ri mi)) "lower"
        (ri + 1) (mi / 2) (mi % 2 * 2 + 1) = some w1) ∧
    (b.lower.length ≤ ri + 1 → 3 < gfm.players.length →
      readSlot (resultState (advance_players b ws ls "lower" ri mi))
        "grand_final" 0 0 2 = some w0 ∧
      readSlot (resultState (advance_players b ws ls "lower" ri mi))
        "grand_final" 0 0 3 = some w1) ∧
    (∀ ls', advance_players b ws ls "lower" ri mi =
      advance_players b ws ls' "lower" ri mi) := by
  have hUp : ∀ (lsx : List DESlot), advance_players b ws lsx "upper" ri mi =
      Except.bind (advanceUpperWinners b ws ri mi)
        (fun b1 => advanceUpperLosers b1 lsx ri mi) := by
    intro lsx
    unfold advance_players
    rw [hgf]
    rfl
  have hLo : ∀ (lsx : List DESlot), advance_players b ws lsx "lower" ri mi =
      advanceLowerWinners b ws ri mi := by
    intro lsx
    unfold advance_players
    rw [hgf]
    rfl
  refine ⟨?_, ?_, ?_, ?_, ?_, ?_, fun ls' => (hLo ls).trans (hLo ls').symm⟩
  · intro dmt hnr hdm hsl
    obtain ⟨b1, hok, hbl, hbg, hdm'⟩ :=
      advanceUpperWinners_next_spec b ws w0 w1 ri mi dmt hnr hw0 hw1 hdm hsl
    have hre : resultState (advance_players b ws ls "upper" ri mi) =
        resultState (advanceUpperLosers b1 ls ri mi) := by
      rw [hUp ls, hok]
      rfl
    have hfr := (advanceUpperLosers_frame b1 ls ri mi).1
    have hpair := getElem_set_pair dmt.players (mi % 2 * 2) w0 w1 hsl
    have hread : ∀ s, readSlot (resultState (advance_players b ws ls "upper"
        ri mi)) "upper" (ri + 1) (mi / 2) s =
        (getRoundMatch b1.upper (ri + 1) (mi / 2)).bind
          (fun mt => mt.players[s]?) := by
      intro s
      rw [hre]
      unfold readSlot
      rw [if_neg (by decide), if_pos rfl, hfr]
    constructor
    · rw [hread, hdm']
      simpa using hpair.1
    · rw [hread, hdm']
      simpa using hpair.2
  · intro hub hslgf
    obtain ⟨b1, hok, hbu, hbl, hgf'⟩ :=
      advanceUpperWinners_gf_spec b ws w0 w1 ri mi gfm hub hw0 hw1 hgf hslgf
    have hre : resultState (advance_players b ws ls "upper" ri mi) =
        resultState (advanceUpperLosers b1 ls ri mi) := by
      rw [hUp ls, hok]
      rfl
    have hfr := (advanceUpperLosers_frame b1 ls ri mi).2.1
    have hpair := getElem_set_pair gfm.players 0 w0 w1 (by omega)
    have hread : ∀ s, readSlot (resultState (advance_players b ws ls "upper"
        ri mi)) "grand_final" 0 0 s =
        (b1.grand_final.matches'[0]?).bind (fun mt => mt.players[s]?) := by
      intro s
      rw [hre]
      unfold readSlot
      rw [if_pos rfl, hfr]
    constructor
    · rw [hread, hgf']
      simpa using hpair.1
    · rw [hread, hgf']
      simpa using hpair.2
  · intro b1 dmt hok hL hdm hsl
    have hb1l : b1.lower = b.lower := by
      have hfr := (advanceUpperWinners_frame b ws ri mi).1
      rw [hok] at hfr
      simpa [resultState] using hfr
    obtain ⟨b2, hok2, hb2u, hb2g, hdm2⟩ :=
      advanceUpperLosers_next_spec b1 ls l0 l1 ri mi dmt
        (by rw [hb1l]; exact hL) hl0 hl1 (by rw [hb1l]; exact hdm) hsl
    have hre : advance_players b ws ls "upper" ri mi = .ok b2 := by
      rw [hUp ls, hok]
      simpa using hok2
    have hpair := getElem_set_pair dmt.players (mi % 2 * 2) l0 l1 hsl
    have hread : ∀ s, readSlot (resultState (advance_players b ws ls "upper"
        ri mi)) "lower" (if ri = 0 then 0 else (ri - 1) * 2 + 1) (mi / 2) s =
        (getRoundMatch b2.lower (if ri = 0 then 0 else (ri - 1) * 2 + 1)
          (mi / 2)).bind (fun mt => mt.players[s]?) := by
      intro s
      rw [hre]
      unfold readSlot
      rw [if_neg (by decide), if_neg (by decide), if_pos rfl]
      rfl
    constructor
    · rw [hread, hdm2]
      simpa using hpair.1
    · rw [hread, hdm2]
      simpa using hpair.2
  · intro b1 hok hL
    have hb1l : b1.lower = b.lower := by
      have hfr := (advanceUpperWinners_frame b ws ri mi).1
      rw [hok] at hfr
      simpa [resultState] using hfr
    rw [hUp ls, hok]
    exact advanceUpperLosers_drop b1 ls ri mi (by rw [hb1l]; exact hL)
  · intro dmt hnr hdm hsl
    obtain ⟨b1, hok, hbu, hbg, hdm'⟩ :=
      advanceLowerWinners_next_spec b ws w0 w1 ri mi dmt hnr hw0 hw1 hdm hsl
    have hre : advance_players b ws ls "lower" ri mi = .ok b1 := by
      rw [hLo ls, hok]
    have hpair := getElem_set_pair dmt.players (mi % 2 * 2) w0 w1 hsl
    have hread : ∀ s, readSlot (resultState (advance_players b ws ls "lower"
        ri mi)) "lower" (ri + 1) (mi / 2) s =
        (getRoundMatch b1.lower (ri + 1) (mi / 2)).bind
          (fun mt => mt.players[s]?) := by
      intro s
      rw [hre]
      unfold readSlot
      rw [if_neg (by decide), if_neg (by decide), if_pos rfl]
      rfl
    refine ⟨by rw [hre]; rfl, ?_, ?_⟩
    · rw [hread, hdm']
      simpa using hpair.1
    · rw [hread, hdm']
      simpa using hpair.2
  · intro hub hslgf
    obtain ⟨b1, hok, hbu, hbl, hgf'⟩ :=
      advanceLowerWinners_gf_spec b ws w0 w1 ri mi gfm hub hw0 hw1 hgf hslgf
    have hre : advance_players b ws ls "lower" ri mi = .ok b1 := by
      rw [hLo ls, hok]
    have hpair := getElem_set_pair gfm.players 2 w0 w1 (by omega)
    have hread : ∀ s, readSlot (resultState (advance_players b ws ls "lower"
        ri mi)) "grand_final" 0 0 s =
        (b1.grand_final.matches'[0]?).bind (fun mt => mt.players[s]?) := by
      intro s
      rw [hre]
      unfold readSlot
      rw [if_pos rfl]
      rfl
    constructor
    · rw [hread, hgf']
      simpa using hpair.1
    · rw [hread, hgf']
      simpa using hpair.2

/-- C5, witness: routing upper round 1 match 1 of the 8-player bracket
places the two winners in upper round 2 match 1, slots 0 and 1. -/
theorem C5_witness :
    readSlot (resultState (advance_players sampleB8
        [routedSlot "W1", routedSlot "W2"] [routedSlot "L1", routedSlot "L2"]
        "upper" 0 0)) "upper" 1 0 0 = some (routedSlot "W1") ∧
    readSlot (resultState (advance_players sampleB8
        [routedSlot "W1", routedSlot "W2"] [routedSlot "L1", routedSlot "L2"]
        "upper" 0 0)) "upper" 1 0 1 = some (routedSlot "W2") :=
  (C5_router_destinations sampleB8
    [routedSlot "W1", routedSlot "W2"] [routedSlot "L1", routedSlot "L2"]
    (routedSlot "W1") (routedSlot "W2") (routedSlot "L1") (routedSlot "L2")
    0 0 ((sampleB8.grand_final.matches'[0]?).getD ⟨"", [], [], false⟩)
    rfl rfl rfl rfl (by decide)).1
    ((getRoundMatch sampleB8.upper 1 0).getD ⟨"", [], [], false⟩)
    (by decide) (by decide) (by decide)

/-- A serpentine grouping of 3 or 4 players is a single match. -/
theorem serpentine_count_small (current : List Player)
    (h3 : 3 ≤ current.length) (h4 : current.length ≤ 4) :
    (create_serpentine_matches current).length = 1 := by
  unfold create_serpentine_matches
  rw [if_neg (by omega)]
  simp only [List.length_map, List.length_range]
  omega

/-- The upper-round loop builds nothing from 2 or fewer players. -/
theorem buildUpperRoundsFuel_small (fuel : Nat) (current : List Player)
    (r : Nat) (h2 : current.length ≤ 2) :
    buildUpperRoundsFuel fuel current r = [] := by
  cases fuel with
  | zero => rfl
  | succ f =>
    simp only [buildUpperRoundsFuel]
    rw [if_pos h2]

/-- The upper-round loop builds exactly one single-match round from 3 or 4
players. -/
theorem buildUpperRoundsFuel_one (fuel : Nat) (current : List Player) (r : Nat)
    (hf : 1 ≤ fuel) (h3 : 3 ≤ current.length) (h4 : current.length ≤ 4) :
    buildUpperRoundsFuel fuel current r =
      [⟨"Upper Round " ++ toString r,
        mkUBMatches (create_serpentine_matches current) r⟩] := by
  cases fuel with
  | zero => omega
  | succ f =>
    simp only [buildUpperRoundsFuel]
    rw [if_neg (by omega)]
    have hms : (mkUBMatches (create_serpentine_matches current) r).length = 1 := by
      unfold mkUBMatches
      simp [serpentine_count_small current h3 h4]
    rw [if_pos (by omega)]

/-- Integrity of the 4-or-fewer-player bracket shape: one upper match, two
single-match lower rounds, the standard grand final. -/
theorem integrity_one_round (nm : String) (mt : DEMatch) :
    integrityCheck ⟨[⟨nm, [mt]⟩], [mkLBRound 0 1, mkLBRound 1 1],
      ⟨"Grand Final", [⟨"GF-M1", List.replicate 4 tbdSlot, [], false⟩]⟩⟩
      = true := rfl

set_option maxRecDepth 40000 in
/-- C1, amended: the router preserves bracket integrity (every non-final
match has reachable winner and loser destinations, pairwise disjoint across
source matches) for roster sizes 1 through 4; the counterexample shows it
fails from size 5 on. -/
theorem C1_small_bracket_integrity (ps : List Player) (h1 : 1 ≤ ps.length)
    (h4 : ps.length ≤ 4) :
    (generate_double_elim_bracket ps).map integrityCheck = some true := by
  have hne : ps ≠ [] := by
    intro h
    rw [h] at h1
    exact absurd h1 (by decide)
  have hq : (pySort seedLe ps).length = ps.length := by
    simp [pySort]
  simp only [generate_double_elim_bracket, if_neg hne]
  by_cases h2 : (pySort seedLe ps).length ≤ 2
  · simp only [buildUpperRounds, buildUpperRoundsFuel_small _ _ _ h2]
    decide
  · simp only [buildUpperRounds,
      buildUpperRoundsFuel_one (pySort seedLe ps).length (pySort seedLe ps) 1
        (by omega) (by omega) (by omega)]
    have hms : (mkUBMatches (create_serpentine_matches (pySort seedLe ps))
        1).length = 1 := by
      unfold mkUBMatches
      simp [serpentine_count_small (pySort seedLe ps) (by omega) (by omega)]
    obtain ⟨mt, hmt⟩ := List.length_eq_one.mp hms
    rw [hmt]
    simp only [Option.map, Option.some.injEq]
    convert integrity_one_round ("Upper Round " ++ toString 1) mt using 2
    simp [List.range_succ]

/-- C1, witness: the amended integrity theorem applied to the 4-player
sample roster. -/
theorem C1_witness :
    (generate_double_elim_bracket (sampleRoster 4)).map integrityCheck
      = some true :=
  C1_small_bracket_integrity (sampleRoster 4) (by decide) (by decide)

/-- A forward band of `getD` reads is a `take` of a `drop`. -/
theorem getD_band_take (l : List Player) (d : Player) (a m : Nat)
    (h : a + m ≤ l.length) (f : Nat → Nat) (hf : ∀ i, i < m → f i = a + i) :
    (List.range m).map (fun i => l.getD (f i) d) = (l.drop a).take m := by
  apply List.ext_getElem
  · simp
    omega
  · intro j h1 h2
    simp only [List.getElem_map, List.getElem_range, List.getElem_take,
      List.getElem_drop]
    have hj : j < m := by simpa using h1
    rw [hf j hj, List.getD_eq_getElem?_getD, List.getElem?_eq_getElem (by omega)]
    rfl

/-- A backward band of `getD` reads is a reversed `take` of a `drop`. -/
theorem getD_band_rev (l : List Player) (d : Player) (a m : Nat)
    (h : a + m ≤ l.length) (f : Nat → Nat)
    (hf : ∀ i, i < m → f i = a + m - 1 - i) :
    (List.range m).map (fun i => l.getD (f i) d) = ((l.drop a).take m).reverse := by
  apply List.ext_getElem
  · simp
    omega
  · intro j h1 h2
    have hj : j < m := by simpa using h1
    have hlen : ((l.drop a).take m).length = m := by
      simp
      omega
    simp only [List.getElem_map, List.getElem_range, List.getElem_reverse,
      List.getElem_take, List.getElem_drop, hlen]
    rw [hf j hj, List.getD_eq_getElem?_getD]
    have hidx : a + m - 1 - j = a + (m - 1 - j) := by omega
    rw [hidx, List.getElem?_eq_getElem (by omega)]
    rfl

/-- Counting through a flattened list of quads, band by band. -/
theorem countP_flatten_quad (q : Player → Bool) (f g h k : Nat → Player)
    (m : Nat) :
    (((List.range m).map (fun i => [f i, g i, h i, k i])).flatten).countP q =
      (((List.range m).map f).countP q) + (((List.range m).map g).countP q) +
      (((List.range m).map h).countP q) + (((List.range m).map k).countP q) := by
  induction m with
  | zero => simp
  | succ n ih =>
    simp only [List.range_succ, List.map_append, List.flatten_append,
      List.countP_append, List.map_cons, List.map_nil, List.flatten_cons,
      List.flatten_nil, List.append_nil, List.countP_cons, ih]
    simp [List.countP_cons]
    omega

/-- Serpentine counting over an exactly-padded list: the four position bands
partition the padded list, so dropping BYEs and counting is counting over the
padded list with the BYE-dropping conjunct. -/
theorem countP_serpentine_core (l : List Player) (q : Player → Bool) (m : Nat)
    (hlen : l.length = 4 * m) :
    (((List.range m).map (fun i =>
      ([l.getD i byePlayer, l.getD (m * 2 - 1 - i) byePlayer,
        l.getD (m * 2 + i) byePlayer, l.getD (m * 4 - 1 - i) byePlayer]).filter
        (fun p => p.trackmania_id ≠ "BYE"))).flatten).countP q =
      l.countP (fun p => q p && decide (p.trackmania_id ≠ "BYE")) := by
  have hmap : (List.range m).map (fun i =>
      ([l.getD i byePlayer, l.getD (m * 2 - 1 - i) byePlayer,
        l.getD (m * 2 + i) byePlayer, l.getD (m * 4 - 1 - i) byePlayer]).filter
        (fun p => p.trackmania_id ≠ "BYE")) =
      ((List.range m).map (fun i =>
        [l.getD i byePlayer, l.getD (m * 2 - 1 - i) byePlayer,
         l.getD (m * 2 + i) byePlayer, l.getD (m * 4 - 1 - i) byePlayer])).map
        (List.filter (fun p => decide (p.trackmania_id ≠ "BYE"))) := by
    rw [List.map_map]
    rfl
  rw [hmap, ← List.filter_flatten, List.countP_filter, countP_flatten_quad]
  rw [getD_band_take l byePlayer 0 m (by omega) (fun i => i)
      (fun i hi => by show i = 0 + i; omega),
    getD_band_rev l byePlayer m m (by omega) (fun i => m * 2 - 1 - i)
      (fun i hi => by show m * 2 - 1 - i = m + m - 1 - i; omega),
    getD_band_take l byePlayer (m + m) m (by omega) (fun i => m * 2 + i)
      (fun i hi => by show m * 2 + i = m + m + i; omega),
    getD_band_rev l byePlayer (m + m + m) m (by omega)
      (fun i => m * 4 - 1 - i)
      (fun i hi => by show m * 4 - 1 - i = m + m + m + m - 1 - i; omega)]
  rw [List.countP_reverse, List.countP_reverse, List.drop_zero]
  have e1 : l.countP (fun p => q p && decide (p.trackmania_id ≠ "BYE")) =
      (l.take m).countP (fun p => q p && decide (p.trackmania_id ≠ "BYE")) +
      (l.drop m).countP (fun p => q p && decide (p.trackmania_id ≠ "BYE")) := by
    conv_lhs => rw [← List.take_append_drop m l]
    rw [List.countP_append]
  have e2 : (l.drop m).countP
      (fun p => q p && decide (p.trackmania_id ≠ "BYE")) =
      ((l.drop m).take m).countP
        (fun p => q p && decide (p.trackmania_id ≠ "BYE")) +
      ((l.drop m).drop m).countP
        (fun p => q p && decide (p.trackmania_id ≠ "BYE")) := by
    conv_lhs => rw [← List.take_append_drop m (l.drop m)]
    rw [List.countP_append]
  have e3 : (l.drop m).drop m = l.drop (m + m) := by
    rw [List.drop_drop]
  have e4 : (l.drop (m + m)).countP
      (fun p => q p && decide (p.trackmania_id ≠ "BYE")) =
      ((l.drop (m + m)).take m).countP
        (fun p => q p && decide (p.trackmania_id ≠ "BYE")) +
      ((l.drop (m + m)).drop m).countP
        (fun p => q p && decide (p.trackmania_id ≠ "BYE")) := by
    conv_lhs => rw [← List.take_append_drop m (l.drop (m + m))]
    rw [List.countP_append]
  have e5 : (l.drop (m + m)).drop m = l.drop (m + m + m) := by
    rw [List.drop_drop]
  have e6 : (l.drop (m + m + m)).take m = l.drop (m + m + m) :=
    List.take_of_length_le (by simp; omega)
  rw [e6]
  rw [e3] at e2
  rw [e5] at e4
  omega

/-- Counting the flattened serpentine groups of a roster: BYE padding and the
BYE filter cancel, leaving a count over the roster itself. -/
theorem countP_serpentine (ps : List Player) (q : Player → Bool) :
    ((create_serpentine_matches ps).flatten).countP q =
      ps.countP (fun p => q p && decide (p.trackmania_id ≠ "BYE")) := by
  by_cases h0 : ps.length = 0
  · rw [List.length_eq_zero] at h0
    subst h0
    rfl
  · unfold create_serpentine_matches
    rw [if_neg h0]
    have hcore := countP_serpentine_core
      (ps ++ List.replicate ((ps.length + 3) / 4 * 4 - ps.length) byePlayer) q
      ((ps.length + 3) / 4) (by simp; omega)
    refine hcore.trans ?_
    rw [List.countP_append, List.countP_replicate]
    simp [byePlayer]

/-- Every player in a serpentine group comes from the grouped list (or is
the BYE padding, which the group filter then removes). -/
theorem mem_serpentine (ps : List Player) (g : List Player) (p : Player)
    (hg : g ∈ create_serpentine_matches ps) (hp : p ∈ g) :
    (p ∈ ps ∨ p = byePlayer) ∧ p.trackmania_id ≠ "BYE" := by
  unfold create_serpentine_matches at hg
  split at hg
  · cases hg
  · simp only [List.mem_map, List.mem_range] at hg
    obtain ⟨i, hi, rfl⟩ := hg
    rw [List.mem_filter] at hp
    have hd : ∀ j : Nat,
        (ps ++ List.replicate ((ps.length + 3) / 4 * 4 - ps.length)
          byePlayer).getD j byePlayer ∈ ps ∨
        (ps ++ List.replicate ((ps.length + 3) / 4 * 4 - ps.length)
          byePlayer).getD j byePlayer = byePlayer := by
      intro j
      rw [List.getD_eq_getElem?_getD]
      rcases hj : (ps ++ List.replicate ((ps.length + 3) / 4 * 4 - ps.length)
          byePlayer)[j]? with _ | x
      · right
        rfl
      · have hx : x ∈ ps ++ List.replicate ((ps.length + 3) / 4 * 4
            - ps.length) byePlayer := List.getElem?_mem hj
        rw [List.mem_append] at hx
        rcases hx with hx | hx
        · left
          exact hx
        · right
          exact List.eq_of_mem_replicate hx
    refine ⟨?_, by simpa using hp.2⟩
    have hmem := hp.1
    simp only [List.mem_cons, List.not_mem_nil, or_false] at hmem
    rcases hmem with h | h | h | h <;> rw [h] <;> exact hd _

/-- Every slot of every match built from TBD placeholders is TBD. -/
theorem buildUpperRoundsFuel_tbd (fuel : Nat) : ∀ (n r : Nat),
    ∀ rd ∈ buildUpperRoundsFuel fuel (List.replicate n tbdPlayer) r,
    ∀ mt ∈ rd.matches', ∀ s ∈ mt.players, s.trackmania_id = "TBD" := by
  induction fuel with
  | zero =>
    intro n r rd h
    cases h
  | succ f ih =>
    intro n r rd hrd mt hmt s hs
    have hgrp : ∀ mt' ∈ mkUBMatches
        (create_serpentine_matches (List.replicate n tbdPlayer)) r,
        ∀ s' ∈ mt'.players, s'.trackmania_id = "TBD" := by
      intro mt' hmt' s' hs'
      unfold mkUBMatches at hmt'
      simp only [List.mem_map] at hmt'
      obtain ⟨ig, hig, rfl⟩ := hmt'
      simp only [List.mem_map] at hs'
      obtain ⟨pl, hpl, rfl⟩ := hs'
      have hig2 : ig.2 ∈ create_serpentine_matches
          (List.replicate n tbdPlayer) := by
        have := List.mem_map_of_mem Prod.snd hig
        rwa [List.enum_map_snd] at this
      have hm := mem_serpentine _ _ _ hig2 hpl
      rcases hm.1 with h | h
      · rw [List.eq_of_mem_replicate h]
        rfl
      · exact absurd (by rw [h]; rfl) hm.2
    simp only [buildUpperRoundsFuel] at hrd
    split at hrd
    · cases hrd
    · split at hrd
      · simp only [List.mem_singleton] at hrd
        subst hrd
        exact hgrp mt hmt s hs
      · simp only [List.mem_cons] at hrd
        rcases hrd with hrd | hrd
        · subst hrd
          exact hgrp mt hmt s hs
        · exact ih _ _ rd hrd mt hmt s hs

/-- For 3 or more players the first generated upper round is the serpentine
round, and every later round holds only TBD slots. -/
theorem buildUpperRoundsFuel_head (fuel : Nat) (current : List Player)
    (r : Nat) (hf : 1 ≤ fuel) (h3 : 3 ≤ current.length) :
    ∃ rest, buildUpperRoundsFuel fuel current r =
      ⟨"Upper Round " ++ toString r,
        mkUBMatches (create_serpentine_matches current) r⟩ :: rest ∧
      (∀ rd ∈ rest, ∀ mt ∈ rd.matches', ∀ s ∈ mt.players,
        s.trackmania_id = "TBD") := by
  cases fuel with
  | zero => omega
  | succ f =>
    simp only [buildUpperRoundsFuel]
    rw [if_neg (by omega)]
    split
    · exact ⟨[], rfl, by intro rd h; cases h⟩
    · refine ⟨_, rfl, ?_⟩
      intro rd hrd
      exact buildUpperRoundsFuel_tbd f _ _ rd hrd

/-- Pre-allocated lower-round matches hold only TBD slots. -/
theorem mkLBRound_tbd (i k : Nat) :
    ∀ mt ∈ (mkLBRound i k).matches', ∀ s ∈ mt.players,
      s.trackmania_id = "TBD" := by
  intro mt hmt s hs
  unfold mkLBRound at hmt
  simp only [List.mem_map, List.mem_range] at hmt
  obtain ⟨j, hj, rfl⟩ := hmt
  simp only at hs
  rw [List.eq_of_mem_replicate hs]
  rfl

/-- The generated bracket of a roster of 3 or more: serpentine first upper
round, TBD-only later upper rounds, TBD-only lower rounds, the standard
grand final. -/
theorem generate_structure (ps : List Player) (h3 : 3 ≤ ps.length) :
    ∃ rest lower, generate_double_elim_bracket ps = some
      ⟨⟨"Upper Round " ++ toString 1,
          mkUBMatches (create_serpentine_matches (pySort seedLe ps)) 1⟩ :: rest,
        lower,
        ⟨"Grand Final", [⟨"GF-M1", List.replicate 4 tbdSlot, [], false⟩]⟩⟩ ∧
      (∀ rd ∈ rest, ∀ mt ∈ rd.matches', ∀ s ∈ mt.players,
        s.trackmania_id = "TBD") ∧
      (∀ rd ∈ lower, ∀ mt ∈ rd.matches', ∀ s ∈ mt.players,
        s.trackmania_id = "TBD") := by
  have hne : ps ≠ [] := by
    intro h
    rw [h] at h3
    exact absurd h3 (by decide)
  have hq : (pySort seedLe ps).length = ps.length := by
    simp [pySort]
  obtain ⟨rest, hup, htbd⟩ := buildUpperRoundsFuel_head
    (pySort seedLe ps).length (pySort seedLe ps) 1 (by omega) (by omega)
  simp only [generate_double_elim_bracket, if_neg hne, buildUpperRounds]
  rw [hup]
  refine ⟨rest, _, rfl, htbd, ?_⟩
  intro rd hrd
  rw [List.mem_filterMap] at hrd
  obtain ⟨i, _, hf⟩ := hrd
  simp only [Option.ite_none_right_eq_some, Option.some.injEq] at hf
  rw [← hf.2]
  exact mkLBRound_tbd i _

/-- The first-round slots of a serpentine-headed bracket are the flattened
serpentine groups, as slot dicts. -/
theorem round1Slots_serpentine (nm : String) (groups : List (List Player))
    (r : Nat) (rest lower : List DERound) (gf : DERound) :
    round1Slots ⟨⟨nm, mkUBMatches groups r⟩ :: rest, lower, gf⟩ =
      (groups.flatten).map toSlot := by
  unfold round1Slots
  rw [List.getD_cons_zero]
  unfold mkUBMatches
  rw [List.map_map]
  rw [show ((fun mt => mt.players) ∘ (fun ig : Nat × List Player =>
      ({ id := "UB-R" ++ toString r ++ "M" ++ toString (ig.1 + 1)
         players := ig.2.map toSlot, winners := [], is_complete := false }
        : DEMatch))) = (List.map toSlot ∘ Prod.snd) from rfl]
  rw [← List.map_map, List.enum_map_snd, List.map_flatten]

/-- Any slot count over the first-round slots of a generated bracket is the
same count over the roster (BYE padding dropped). -/
theorem countP_round1 (ps : List Player) (nm : String) (r : Nat)
    (rest lower : List DERound) (gf : DERound) (pred : DESlot → Bool) :
    (round1Slots ⟨⟨nm, mkUBMatches
        (create_serpentine_matches (pySort seedLe ps)) r⟩ :: rest, lower, gf⟩
      ).countP pred =
      ps.countP (fun p => pred (toSlot p) &&
        decide (p.trackmania_id ≠ "BYE")) := by
  rw [round1Slots_serpentine, List.countP_map, countP_serpentine]
  exact (List.perm_insertionSort _ ps).countP_eq _

/-- The flattened slot lists of a serpentine upper round. -/
theorem ub1_slots (groups : List (List Player)) (r : Nat) :
    ((mkUBMatches groups r).map (fun mt => mt.players)).flatten =
      (groups.flatten).map toSlot := by
  unfold mkUBMatches
  rw [List.map_map]
  rw [show ((fun mt => mt.players) ∘ (fun ig : Nat × List Player =>
      ({ id := "UB-R" ++ toString r ++ "M" ++ toString (ig.1 + 1)
         players := ig.2.map toSlot, winners := [], is_complete := false }
        : DEMatch))) = (List.map toSlot ∘ Prod.snd) from rfl]
  rw [← List.map_map, List.enum_map_snd, List.map_flatten]

/-- Slot counts over a serpentine upper round, reduced to the roster. -/
theorem countP_ub1 (ps : List Player) (r : Nat) (pred : DESlot → Bool) :
    (((mkUBMatches (create_serpentine_matches (pySort seedLe ps)) r).map
      (fun mt => mt.players)).flatten).countP pred =
      ps.countP (fun p => pred (toSlot p) &&
        decide (p.trackmania_id ≠ "BYE")) := by
  rw [ub1_slots, List.countP_map, countP_serpentine]
  exact (List.perm_insertionSort _ ps).countP_eq _

/-- A round whose slots are all TBD contributes no real entrants. -/
theorem countP_real_round_zero (rd : DERound)
    (h : ∀ mt ∈ rd.matches', ∀ s ∈ mt.players, s.trackmania_id = "TBD") :
    ((rd.matches'.map (fun mt => mt.players)).flatten).countP
      (fun p => isRealId p.trackmania_id) = 0 := by
  rw [List.countP_eq_zero]
  intro s hs
  rw [List.mem_flatten] at hs
  obtain ⟨pl, hpl, hsp⟩ := hs
  rw [List.mem_map] at hpl
  obtain ⟨mt, hmt, rfl⟩ := hpl
  rw [h mt hmt s hsp]
  decide

/-- C2, amended: for every roster of 3 or more distinctly-identified real
entrants, the generated double-elimination bracket places exactly
`ps.length` real entrant slots in total, and each roster entrant occupies
exactly one Upper Round 1 slot (hence appears in exactly one Round-1 match).
The counterexample shows the original `N ≥ 1` bound fails at `N = 1`. -/
theorem C2_roster_placement (ps : List Player) (h3 : 3 ≤ ps.length)
    (hreal : ∀ p ∈ ps, isRealId p.trackmania_id = true)
    (hnodup : ps.Pairwise (fun a b => a.trackmania_id ≠ b.trackmania_id)) :
    ∃ b, generate_double_elim_bracket ps = some b ∧
      realPlacedCount b = ps.length ∧
      (∀ p ∈ ps, (round1Slots b).countP
        (fun s => s.trackmania_id == p.trackmania_id) = 1) := by
  obtain ⟨rest, lower, hgen, hrest, hlow⟩ := generate_structure ps h3
  refine ⟨_, hgen, ?_, ?_⟩
  · unfold realPlacedCount allDESlots
    rw [List.countP_flatten, List.map_map]
    simp only [List.map_append, List.map_cons, List.map_nil, List.sum_append,
      List.sum_cons, List.sum_nil, Function.comp_def]
    have h1 := countP_ub1 ps 1 (fun s => isRealId s.trackmania_id)
    rw [h1]
    have h2 : (rest.map (fun rd =>
        ((rd.matches'.map (fun mt => mt.players)).flatten).countP
          (fun p => isRealId p.trackmania_id))).sum = 0 := by
      apply List.sum_eq_zero
      intro x hx
      rw [List.mem_map] at hx
      obtain ⟨rd, hrd, rfl⟩ := hx
      exact countP_real_round_zero rd (hrest rd hrd)
    have h3' : (lower.map (fun rd =>
        ((rd.matches'.map (fun mt => mt.players)).flatten).countP
          (fun p => isRealId p.trackmania_id))).sum = 0 := by
      apply List.sum_eq_zero
      intro x hx
      rw [List.mem_map] at hx
      obtain ⟨rd, hrd, rfl⟩ := hx
      exact countP_real_round_zero rd (hlow rd hrd)
    rw [h2, h3']
    have h5 : ps.countP (fun p => isRealId (toSlot p).trackmania_id &&
        decide (p.trackmania_id ≠ "BYE")) = ps.length := by
      rw [List.countP_eq_length]
      intro a ha
      have := hreal a ha
      simp only [isRealId, toSlot, Bool.and_eq_true, decide_eq_true_eq] at this ⊢
      tauto
    rw [h5]
    simp [isRealId, tbdSlot]
  · intro p hp
    have hperm : (pySort seedLe ps).Perm ps := List.perm_insertionSort _ ps
    rw [round1Slots_serpentine, List.countP_map, countP_serpentine,
      hperm.countP_eq]
    have hcg : ps.countP (fun x =>
        ((toSlot x).trackmania_id == p.trackmania_id) &&
          decide (x.trackmania_id ≠ "BYE")) =
        ps.countP (fun x => x.trackmania_id == p.trackmania_id) := by
      apply List.countP_congr
      intro x hx
      have := hreal x hx
      simp only [isRealId, toSlot, Bool.and_eq_true, decide_eq_true_eq] at this ⊢
      tauto
    simp only [Function.comp_def]
    rw [hcg]
    have hmapcount : ps.countP (fun x => x.trackmania_id == p.trackmania_id)
        = (ps.map (fun x => x.trackmania_id)).count p.trackmania_id := by
      rw [List.count_eq_countP, List.countP_map]
      rfl
    rw [hmapcount]
    refine List.count_eq_one_of_mem ?_ (List.mem_map_of_mem _ hp)
    exact List.pairwise_map.mpr hnodup

/-- C2, witness: the amended placement theorem applied to the 8-player
sample roster. -/
theorem C2_witness :
    ∃ b, generate_double_elim_bracket (sampleRoster 8) = some b ∧
      realPlacedCount b = (sampleRoster 8).length ∧
      (∀ p ∈ sampleRoster 8, (round1Slots b).countP
        (fun s => s.trackmania_id == p.trackmania_id) = 1) :=
  C2_roster_placement (sampleRoster 8) (by decide) (by decide) (by decide)

/-- Indexing an enumerated list. -/
theorem getElem?_enum {α : Type} (l : List α) (i : Nat) :
    l.enum[i]? = (l[i]?).map (fun a => (i, a)) := by
  by_cases h : i < l.length
  · rw [List.getElem?_eq_getElem (by simpa using h), List.getElem?_eq_getElem h]
    simp [List.getElem_enum]
  · rw [List.getElem?_eq_none (by simpa using h),
      List.getElem?_eq_none (by omega)]
    rfl

/-- C4, amended: for every roster of `N ≥ 3` entrants sorted ascending by
seed, with `m = ceil(N/4)` and the roster padded with BYEs to length `4m`,
Upper Round 1 has `m` matches and match `i` consists exactly of the padded
entrants at positions `i`, `2m-1-i`, `2m+i`, `4m-1-i` with BYE slots dropped.
The counterexample shows the original `N ≥ 1` bound fails at `N = 1`, where
no upper round exists at all. -/
theorem C4_serpentine_round1 (ps : List Player) (m : Nat) (h3 : 3 ≤ ps.length)
    (hm : m = (ps.length + 3) / 4)
    (hsorted : List.Pairwise (fun a b => seedLe a b = true) ps) :
    ∃ b, generate_double_elim_bracket ps = some b ∧
      (b.upper.getD 0 ⟨"", []⟩).matches'.length = m ∧
      ∀ i, i < m →
        ((b.upper.getD 0 ⟨"", []⟩).matches'[i]?).map (fun mt => mt.players) =
          some ((([
            (ps ++ List.replicate (m * 4 - ps.length) byePlayer).getD i
              byePlayer,
            (ps ++ List.replicate (m * 4 - ps.length) byePlayer).getD
              (m * 2 - 1 - i) byePlayer,
            (ps ++ List.replicate (m * 4 - ps.length) byePlayer).getD
              (m * 2 + i) byePlayer,
            (ps ++ List.replicate (m * 4 - ps.length) byePlayer).getD
              (m * 4 - 1 - i) byePlayer]).filter
            (fun p => p.trackmania_id ≠ "BYE")).map toSlot) := by
  subst hm
  obtain ⟨rest, lower, hgen, _, _⟩ := generate_structure ps h3
  have hps : pySort seedLe ps = ps := List.Sorted.insertionSort_eq hsorted
  rw [hps] at hgen
  refine ⟨_, hgen, ?_, ?_⟩
  · dsimp only [List.getD_cons_zero]
    unfold mkUBMatches
    rw [List.length_map, List.enum_length]
    unfold create_serpentine_matches
    rw [if_neg (by omega)]
    simp
  · intro i hi
    dsimp only [List.getD_cons_zero]
    unfold mkUBMatches
    rw [List.getElem?_map, getElem?_enum]
    unfold create_serpentine_matches
    rw [if_neg (by omega)]
    rw [List.getElem?_map, List.getElem?_range hi]
    rfl

/-- C4, witness: the serpentine theorem applied to the sorted 8-player
roster, plus the concrete example — match 1 holds seeds 1,4,5,8 and match 2
holds seeds 2,3,6,7. -/
theorem C4_witness :
    (∃ b, generate_double_elim_bracket (sampleRoster 8) = some b ∧
      (b.upper.getD 0 ⟨"", []⟩).matches'.length = 2 ∧
      ∀ i, i < 2 →
        ((b.upper.getD 0 ⟨"", []⟩).matches'[i]?).map (fun mt => mt.players) =
          some ((([
            (sampleRoster 8 ++ List.replicate (2 * 4 - (sampleRoster 8).length)
              byePlayer).getD i byePlayer,
            (sampleRoster 8 ++ List.replicate (2 * 4 - (sampleRoster 8).length)
              byePlayer).getD (2 * 2 - 1 - i) byePlayer,
            (sampleRoster 8 ++ List.replicate (2 * 4 - (sampleRoster 8).length)
              byePlayer).getD (2 * 2 + i) byePlayer,
            (sampleRoster 8 ++ List.replicate (2 * 4 - (sampleRoster 8).length)
              byePlayer).getD (2 * 4 - 1 - i) byePlayer]).filter
            (fun p => p.trackmania_id ≠ "BYE")).map toSlot)) ∧
    ((generate_double_elim_bracket (sampleRoster 8)).map (fun b =>
      (b.upper.getD 0 ⟨"", []⟩).matches'.map (fun mt =>
        mt.players.map (fun s => s.seed))) =
      some [[some 1, some 4, some 5, some 8], [some 2, some 3, some 6, some 7]]) :=
  ⟨C4_serpentine_round1 (sampleRoster 8) 2 (by decide) (by decide) (by decide),
   by decide⟩

/-- C9, counterexample.  Swiss resolution is not idempotent: it applies the
posted scores positionally to the re-sorted slot order, so resubmitting
`[3,1,2,0]` to Match 1 (seeds 1–4) first flags seeds `{1,3}` as winners and
then flags seeds `{1,2}`. -/
theorem C9_counterexample :
    swissM1Winners (resultState (update_match sampleSwissT "swiss"
      "SWISS-R1-M1" 0 0 [3, 1, 2, 0])) = some [1, 3] ∧
    swissM1Winners (resultState (update_match (resultState (update_match
      sampleSwissT "swiss" "SWISS-R1-M1" 0 0 [3, 1, 2, 0])) "swiss"
      "SWISS-R1-M1" 0 0 [3, 1, 2, 0])) = some [1, 2] := by
  decide

end Serotonin
